import Mathlib

/-!
Shallow embedding of the data-quality pipeline and batch scheduler of the
data-analytics-and-eda-app backend (`backend/app/analysis.py`,
`backend/app/ingestion.py`, `backend/app/batch.py`).

Tables are column-oriented, as in pandas: a list of named, dtyped columns
over a shared row count.  Missing values (NaN/NaT/None) are the explicit
marker `Val.na`, matching the pandas convention that `duplicated`/`mode`
/statistics treat NaN uniformly.  Numeric cells are rationals; the
irrational library statistics (sample std, sample skew, `np.log1p`) and
the per-cell parsers of `pd.to_numeric` / `pd.to_datetime`, whose exact
values never matter to the properties below, are parameters collected in
`StatLib`, while their definedness rules (std is NaN below 2 observations,
skew below 3) are embedded concretely.
-/

set_option maxRecDepth 40000

namespace Eda

/-!
Kernel-computable rational arithmetic.  The pipeline's float arithmetic is
embedded on `ℚ`; Mathlib's `Rat` operations normalize through `Nat.gcd`,
which is defined by well-founded recursion and does not reduce inside the
kernel, so concrete counterexamples could not be checked by `decide`.  The
operations below compute the same normalized rationals through a fuel-based
gcd and are used everywhere the embedded code does arithmetic.
-/

/-- Euclid's algorithm with explicit fuel (structurally recursive). -/
def gcdF : Nat → Nat → Nat → Nat
  | 0, _, n => n
  | _ + 1, 0, n => n
  | f + 1, m + 1, n => gcdF f (n % (m + 1)) (m + 1)

/-- With enough fuel, `gcdF` is `Nat.gcd` (proof-valued helper used by the
normalization proofs inside `qMk`). -/
def gcdF_correct : ∀ (f m n : Nat), m ≤ f → gcdF f m n = Nat.gcd m n := by
  intro f
  induction f with
  | zero => intro m n h; interval_cases m; simp [gcdF]
  | succ f ih =>
    intro m n h
    match m with
    | 0 => simp [gcdF]
    | m + 1 =>
      rw [gcdF, Nat.gcd_succ]
      exact ih _ _ (Nat.le_of_lt_succ (Nat.lt_of_lt_of_le (Nat.mod_lt _ (Nat.succ_pos m)) h))

/-- The normalized rational `n / d` (0 when `d = 0`), built so that the
kernel can evaluate it. -/
def qMk (n : Int) (d : Nat) : ℚ :=
  if hd : d = 0 then 0
  else
    Rat.mk' (n / (gcdF n.natAbs n.natAbs d : Int)) (d / gcdF n.natAbs n.natAbs d)
      (by
        rw [gcdF_correct _ _ _ le_rfl]
        have hpos : 0 < Nat.gcd n.natAbs d :=
          Nat.gcd_pos_of_pos_right _ (Nat.pos_of_ne_zero hd)
        exact Nat.ne_of_gt (Nat.div_pos
          (Nat.le_of_dvd (Nat.pos_of_ne_zero hd) (Nat.gcd_dvd_right _ _)) hpos))
      (by
        rw [gcdF_correct _ _ _ le_rfl]
        have hpos : 0 < Nat.gcd n.natAbs d :=
          Nat.gcd_pos_of_pos_right _ (Nat.pos_of_ne_zero hd)
        have hg : ((Nat.gcd n.natAbs d : Nat) : Int) ∣ n :=
          Int.dvd_natAbs.mp (Int.natCast_dvd_natCast.mpr (Nat.gcd_dvd_left _ _))
        have habs : ∀ (m : Int) (g : Nat), 0 < g → (g : Int) ∣ m →
            (m / (g : Int)).natAbs = m.natAbs / g := by
          intro m g hgpos hdvd
          rcases hdvd with ⟨c, hc⟩
          subst hc
          rw [Int.mul_ediv_cancel_left _ (by exact_mod_cast hgpos.ne' : (g : Int) ≠ 0),
            Int.natAbs_mul, Int.natAbs_ofNat, Nat.mul_div_cancel_left _ hgpos]
        rw [habs n _ hpos hg]
        exact Nat.coprime_div_gcd_div_gcd hpos)

/-- Rational addition (kernel-computable). -/
def qAdd (a b : ℚ) : ℚ := qMk (a.num * b.den + b.num * a.den) (a.den * b.den)

/-- Rational subtraction (kernel-computable). -/
def qSub (a b : ℚ) : ℚ := qMk (a.num * b.den - b.num * a.den) (a.den * b.den)

/-- Rational multiplication (kernel-computable). -/
def qMul (a b : ℚ) : ℚ := qMk (a.num * b.num) (a.den * b.den)

/-- Rational division (kernel-computable; 0 on a zero divisor, which no
embedded code path reaches with meaning). -/
def qDiv (a b : ℚ) : ℚ :=
  if 0 ≤ b.num then qMk (a.num * b.den) (a.den * b.num.natAbs)
  else qMk (-(a.num * b.den)) (a.den * b.num.natAbs)

/-- Minimum of two rationals. -/
def qMin (a b : ℚ) : ℚ := if a ≤ b then a else b

/-- Maximum of two rationals. -/
def qMax (a b : ℚ) : ℚ := if a ≤ b then b else a

/-- Absolute value of a rational (kernel-computable). -/
def qAbs (a : ℚ) : ℚ := if a < 0 then qMk (-a.num) a.den else a

/-- Floor of a rational as an integer (kernel-computable). -/
def qFloor (a : ℚ) : Int := Int.fdiv a.num a.den

/-- The rational of a natural number. -/
def qNat (n : Nat) : ℚ := qMk n 1

/-- Cell value of a pandas column; `na` models the missing marker
(NaN / NaT / None). -/
inductive Val where
  | na
  | num (q : ℚ)
  | str (s : String)
  | ts (t : Nat)
  | bool (b : Bool)
deriving DecidableEq, Repr

/-- Pandas dtype of a column.  `object` also covers `category` (the two are
treated identically by every stage modelled here and `pd.read_csv` never
produces `category`). -/
inductive Dtype where
  | numeric
  | object
  | datetime
  | boolean
deriving DecidableEq, Repr

/-- A named pandas column. -/
structure Col where
  name : String
  dtype : Dtype
  vals : List Val
deriving DecidableEq, Repr

/-- A DataFrame: ordered columns over a shared row count. -/
structure Table where
  nRows : Nat
  cols : List Col
deriving DecidableEq, Repr

/-- Well-formed table: every column has exactly `nRows` values. -/
def Table.WF (t : Table) : Prop := ∀ c ∈ t.cols, c.vals.length = t.nRows

/-- Opaque numeric/parsing library facts: sample std and skew of enough
observations, `np.log1p`, the per-cell coercions of `pd.to_numeric` and
`pd.to_datetime`, and Python `str()` of numeric / timestamp objects. -/
structure StatLib where
  stdVal : List ℚ → ℚ
  skewVal : List ℚ → ℚ
  log1p : ℚ → ℚ
  parseNum : String → Option ℚ
  parseDate : Val → Option Nat
  showNum : ℚ → String
  showTs : Nat → String

/-- Non-missing values of a column (`series.dropna()`). -/
def Col.nonNull (c : Col) : List Val := c.vals.filter (fun v => v ≠ Val.na)

/-- Number of missing cells of a column (`series.isna().sum()`). -/
def Col.missingCount (c : Col) : Nat := c.vals.countP (fun v => v = Val.na)

/-- Numeric view of the non-missing values of a column; pandas treats
booleans as 1/0 where a numeric reduction is requested. -/
def Col.nums (c : Col) : List ℚ :=
  c.vals.filterMap (fun v =>
    match v with
    | Val.num q => some q
    | Val.bool b => some (if b then 1 else 0)
    | _ => none)

/-- Python `str()` of a cell, as produced by `series.astype(str)` on the
non-missing entries of an object column. -/
def pyStr (L : StatLib) : Val → String
  | Val.na => "nan"
  | Val.num q => L.showNum q
  | Val.str s => s
  | Val.ts t => L.showTs t
  | Val.bool b => if b then "True" else "False"

/-- ASCII whitespace as matched by Python `str.strip` and the regex `\s`. -/
def isPySpace (c : Char) : Bool :=
  c = ' ' || c = '\t' || c = '\n' || c = '\r' || c = '\x0b' || c = '\x0c'

/-- Chunks of a character list delimited by whitespace (possibly empty
chunks at whitespace runs and string edges). -/
def splitWs : List Char → List (List Char)
  | [] => [[]]
  | c :: cs =>
    let r := splitWs cs
    if isPySpace c then [] :: r
    else (c :: r.headD []) :: r.tail

/-- Join words with single spaces. -/
def joinSpace : List (List Char) → List Char
  | [] => []
  | [w] => w
  | w :: ws => w ++ ' ' :: joinSpace ws

/-- Embedding of `.str.strip().str.replace(r"\s+", " ", regex=True).str.lower()`:
trim surrounding whitespace, collapse internal whitespace runs to one
space, lowercase — i.e. the whitespace-delimited words joined by single
spaces, lowercased. -/
def normalizeText (s : String) : String :=
  String.mk ((joinSpace ((splitWs s.data).filter (fun w => w ≠ []))).map Char.toLower)

/-- Consume exactly `k` leading digits, returning the rest. -/
def takeDigits : Nat → List Char → Option (List Char)
  | 0, cs => some cs
  | _ + 1, [] => none
  | k + 1, c :: cs => if c.isDigit then takeDigits k cs else none

/-- Date separators of the regex (dash or slash character class). -/
def isDateSep (c : Char) : Bool := c = '-' || c = '/'

/-- Embedding of a match of the date regex (2-4 digits, separator, 1-2
digits, separator, 1-2 digits) anchored at the start of `cs`; the
existential over the bounded repetitions is equivalent to the regex
engine's backtracking. -/
def dateAt (cs : List Char) : Bool :=
  [2, 3, 4].any fun a =>
    match takeDigits a cs with
    | none => false
    | some r1 =>
      match r1 with
      | [] => false
      | c1 :: r1tl =>
        isDateSep c1 &&
          ([1, 2].any fun b =>
            match takeDigits b r1tl with
            | none => false
            | some r2 =>
              match r2 with
              | [] => false
              | c2 :: r2tl =>
                isDateSep c2 && ([1, 2].any fun k => (takeDigits k r2tl).isSome))

/-- All suffixes of a character list. -/
def suffixesL : List Char → List (List Char)
  | [] => [[]]
  | c :: cs => (c :: cs) :: suffixesL cs

/-- Embedding of the `str.contains` date-likeness test of analysis.py line
66: the date regex matches at some position of the string. -/
def dateLike (s : String) : Bool := (suffixesL s.data).any dateAt

/-- Python `round(q, k)`: round half to even at `k` decimals. -/
def roundQ (k : Nat) (q : ℚ) : ℚ :=
  let m : ℚ := qNat (10 ^ k)
  let x := qMul q m
  let fl : Int := qFloor x
  let fr : ℚ := qSub x (qMk fl 1)
  let r : Int :=
    if fr < qMk 1 2 then fl
    else if qMk 1 2 < fr then fl + 1
    else if fl % 2 = 0 then fl else fl + 1
  qDiv (qMk r 1) m

/-- Insert into a sorted list of rationals. -/
def insertSorted (x : ℚ) : List ℚ → List ℚ
  | [] => [x]
  | y :: ys => if x ≤ y then x :: y :: ys else y :: insertSorted x ys

/-- Sort a list of rationals ascending. -/
def sortQ (l : List ℚ) : List ℚ := l.foldr insertSorted []

/-- Embedding of `Series.quantile(q)` with pandas' default linear
interpolation over the non-missing values; `none` models the NaN result
on an empty series. -/
def pdQuantile (l : List ℚ) (q : ℚ) : Option ℚ :=
  let s := sortQ l
  match s.length with
  | 0 => none
  | n + 1 =>
    let pos : ℚ := qMul q (qNat n)
    let lo : Nat := (qFloor pos).toNat
    let fr : ℚ := qSub pos (qNat lo)
    let a := s.getD lo 0
    let b := s.getD (lo + 1) a
    some (qAdd a (qMul fr (qSub b a)))

/-- Embedding of `Series.median()` (the 0.5 quantile, linear interpolation). -/
def pdMedian (l : List ℚ) : Option ℚ := pdQuantile l (qMk 1 2)

/-- Embedding of `Series.mean()` over the non-missing values. -/
def pdMean (l : List ℚ) : Option ℚ :=
  if l.length = 0 then none else some (qDiv (l.foldl qAdd 0) (qNat l.length))

/-- Embedding of `Series.min()`. -/
def pdMin : List ℚ → Option ℚ
  | [] => none
  | x :: xs => some (xs.foldl qMin x)

/-- Embedding of `Series.max()`. -/
def pdMax : List ℚ → Option ℚ
  | [] => none
  | x :: xs => some (xs.foldl qMax x)

/-- Embedding of `Series.std()` (sample standard deviation, ddof = 1):
NaN (`none`) below two observations, otherwise the library value. -/
def pdStd (L : StatLib) (l : List ℚ) : Option ℚ :=
  if 2 ≤ l.length then some (L.stdVal l) else none

/-- Embedding of `Series.skew()` (sample skewness): NaN (`none`) below
three observations, otherwise the library value. -/
def pdSkew (L : StatLib) (l : List ℚ) : Option ℚ :=
  if 3 ≤ l.length then some (L.skewVal l) else none

/-- JSON-level value as it ends up in the report.  `nanFloat` is a Python
`float('nan')`, which is distinct from the explicit `null`. -/
inductive JVal where
  | null
  | nanFloat
  | float (q : ℚ)
  | int (n : Int)
  | bool (b : Bool)
  | str (s : String)
deriving DecidableEq, Repr

/-- Python scalar reaching `_to_native`: numpy ints/floats/bools, pandas
timestamps, `None`, or plain strings.  A numpy float carries an explicit
NaN flag. -/
inductive PyVal where
  | npInt (n : Int)
  | npFloat (isNaN : Bool) (q : ℚ)
  | npBool (b : Bool)
  | timestamp (t : Nat)
  | pyNone
  | pyStr (s : String)
deriving DecidableEq, Repr

/-- Embedding of `_to_native` (analysis.py lines 11-24), branch for branch:
the `isinstance(value, np.floating)` check comes BEFORE the `pd.isna`
check, so a numpy float that is NaN is returned as `float(value)` — a
float NaN — and never reaches the `pd.isna -> None` branch; that branch
only fires for `None` (and would for NaT). -/
def toNative (L : StatLib) : PyVal → JVal
  | PyVal.npInt n => JVal.int n
  | PyVal.npFloat true _ => JVal.nanFloat
  | PyVal.npFloat false q => JVal.float q
  | PyVal.npBool b => JVal.bool b
  | PyVal.timestamp t => JVal.str (L.showTs t)
  | PyVal.pyNone => JVal.null
  | PyVal.pyStr s => JVal.str s

/-- A pandas numeric reduction result as a Python scalar: an `np.float64`,
NaN exactly when the statistic is undefined. -/
def statFloat : Option ℚ → PyVal
  | some q => PyVal.npFloat false q
  | none => PyVal.npFloat true 0

/-- Report entry for one numeric statistic as built inside the
`numeric_summary` loop: `_to_native(series.stat())`, the FIRST pass. -/
def statToNative (L : StatLib) (o : Option ℚ) : JVal := toNative L (statFloat o)

/-- Embedding of the scalar case of `json_ready` (analysis.py lines
27-34) applied to a value that already went through `_to_native` once.
Such a value is a plain Python scalar, so the numpy/pandas isinstance
branches of the inner `_to_native` call all fail, and only the
`pd.isna` branch acts: it maps a plain float NaN, and `None`, to
`None`, and leaves every other plain scalar unchanged. -/
def jsonReadyScalar : JVal → JVal
  | JVal.nanFloat => JVal.null
  | JVal.null => JVal.null
  | v => v

/-- Concrete library instance used for evaluating the pipeline on the
small witness tables below.  `parseNum` models `pd.to_numeric` restricted
to the literals those tables exercise (non-negative integer literals
succeed, non-numeric text fails); `showNum` models Python `str()` on the
integer objects exercised; the opaque moments are inert stand-ins (no
witness table has a defined skew reaching the threshold). -/
def concreteLib : StatLib :=
  { stdVal := fun _ => 0,
    skewVal := fun _ => 0,
    log1p := fun q => q,
    parseNum := fun s =>
      if s.data ≠ [] ∧ s.data.all Char.isDigit then
        some (qNat (s.data.foldl (fun n c => n * 10 + (c.toNat - 48)) 0))
      else none,
    parseDate := fun _ => none,
    showNum := fun q => if q.den = 1 then toString q.num else toString q,
    showTs := fun t => toString t }

/-- Row `i` of a table (the tuple of the columns' values at index `i`). -/
def Table.row (t : Table) (i : Nat) : List Val :=
  t.cols.map (fun c => c.vals.getD i Val.na)

/-- Whether row `i` is an exact duplicate of an earlier row — pandas
`duplicated()` marks all but the first occurrence, with NaN equal to NaN. -/
def Table.isDupRow (t : Table) (i : Nat) : Bool :=
  (List.range i).any (fun j => decide (t.row j = t.row i))

/-- Embedding of `int(df.duplicated().sum())`. -/
def Table.dupCount (t : Table) : Nat :=
  ((List.range t.nRows).filter (fun i => t.isDupRow i)).length

/-- Row indices kept by `drop_duplicates` (first occurrences, in order). -/
def Table.keepIdx (t : Table) : List Nat :=
  (List.range t.nRows).filter (fun i => ! t.isDupRow i)

/-- Embedding of `int(df.isna().sum().sum())`. -/
def Table.missingCells (t : Table) : Nat := (t.cols.map Col.missingCount).sum

/-- One recorded type conversion (`from` is always `"object"`). -/
structure Conversion where
  column : String
  target : String
  confidence : ℚ
deriving DecidableEq, Repr

/-- Per-cell embedding of `pd.to_numeric(series, errors="coerce")`. -/
def toNumericCell (L : StatLib) : Val → Option ℚ
  | Val.na => none
  | Val.num q => some q
  | Val.bool b => some (if b then 1 else 0)
  | Val.str s => L.parseNum s
  | Val.ts _ => none

/-- Per-cell embedding of `pd.to_datetime(series, errors="coerce", utc=True)`. -/
def toDatetimeCell (L : StatLib) : Val → Option Nat
  | Val.na => none
  | v => L.parseDate v

/-- Embedding of the per-column body of `infer_and_fix_data_types`
(analysis.py lines 41-79): only object columns with at least one
non-missing value are considered; numeric coercion wins at ratio >= 0.85
(denominator: non-missing count), else datetime is attempted only when
the date-like fraction is >= 0.6 and commits at ratio >= 0.85. -/
def inferCol (L : StatLib) (c : Col) : Col × Option Conversion :=
  if c.dtype ≠ Dtype.object then (c, none)
  else
    let nonNull := c.nonNull
    if nonNull.length = 0 then (c, none)
    else
      let numericConverted := c.vals.map (toNumericCell L)
      let numericOk := numericConverted.countP (fun o => o.isSome)
      let numericRatio : ℚ := qDiv (qNat numericOk) (qNat nonNull.length)
      if qMk 85 100 ≤ numericRatio then
        ({ name := c.name, dtype := Dtype.numeric,
           vals := numericConverted.map (fun o =>
             match o with
             | some q => Val.num q
             | none => Val.na) },
         some { column := c.name, target := "numeric",
                confidence := roundQ 3 numericRatio })
      else
        let dateLikeCount := (nonNull.map (pyStr L)).countP dateLike
        let dateLikeRatio : ℚ := qDiv (qNat dateLikeCount) (qNat nonNull.length)
        if qMk 6 10 ≤ dateLikeRatio then
          let dtConverted := c.vals.map (toDatetimeCell L)
          let dtOk := dtConverted.countP (fun o => o.isSome)
          let dtRatio : ℚ := qDiv (qNat dtOk) (qNat nonNull.length)
          if qMk 85 100 ≤ dtRatio then
            ({ name := c.name, dtype := Dtype.datetime,
               vals := dtConverted.map (fun o =>
                 match o with
                 | some t => Val.ts t
                 | none => Val.na) },
             some { column := c.name, target := "datetime",
                    confidence := roundQ 3 dtRatio })
          else (c, none)
        else (c, none)

/-- Embedding of `infer_and_fix_data_types`: every column processed in
table order, conversions recorded in that order. -/
def inferTable (L : StatLib) (t : Table) : Table × List Conversion :=
  ({ nRows := t.nRows, cols := t.cols.map (fun c => (inferCol L c).1) },
   t.cols.filterMap (fun c => (inferCol L c).2))

/-- Embedding of `pd.api.types.is_numeric_dtype` (booleans are numeric). -/
def isNumericDtype : Dtype → Bool
  | Dtype.numeric => true
  | Dtype.boolean => true
  | _ => false

/-- Embedding of `Series.mode(dropna=True).iloc[0]` over the non-missing
values: a value of maximal multiplicity, `none` when the list is empty.
(Pandas orders tied modes by sorting; the tie-break never matters to any
property proved here, so the first-seen maximal value is returned.) -/
def pdMode (l : List Val) : Option Val :=
  l.foldl (fun acc v =>
    match acc with
    | none => some v
    | some b => if l.count b < l.count v then some v else some b) none

/-- Fill record of `_fill_missing_values`. -/
structure FillRecord where
  columnsTouched : Nat
  filledCells : Nat
  detail : List (String × Nat)
deriving DecidableEq, Repr

/-- Per-column body of `_fill_missing_values` (analysis.py lines 178-193):
skip columns without missing cells; numeric columns are filled with the
median (0 when the median is NaN), other columns with the mode
(the string "unknown" when no non-missing value exists). -/
def fillCol (c : Col) : Col × Option (String × Nat) :=
  let missing := c.missingCount
  if missing = 0 then (c, none)
  else
    let fillVal : Val :=
      if isNumericDtype c.dtype then
        match pdMedian c.nums with
        | some m => Val.num m
        | none => Val.num 0
      else
        match pdMode c.nonNull with
        | some v => v
        | none => Val.str "unknown"
    ({ c with vals := c.vals.map (fun v => if v = Val.na then fillVal else v) },
     some (c.name, missing))

/-- Embedding of `_fill_missing_values` (analysis.py lines 174-200). -/
def fillMissingValues (t : Table) : Table × FillRecord :=
  let pairs := t.cols.map fillCol
  let detail := pairs.filterMap Prod.snd
  ({ nRows := t.nRows, cols := pairs.map Prod.fst },
   { columnsTouched := detail.length,
     filledCells := (detail.map Prod.snd).sum,
     detail := detail })

/-- Dedup record of `_drop_duplicates`. -/
structure DedupRecord where
  duplicatesRemoved : Nat
deriving DecidableEq, Repr

/-- Embedding of `_drop_duplicates` (analysis.py lines 203-209): count the
duplicated rows, keep first occurrences, renumber the index contiguously
(implicit here: tables carry no index). -/
def dropDuplicates (t : Table) : Table × DedupRecord :=
  let keep := t.keepIdx
  ({ nRows := keep.length,
     cols := t.cols.map (fun c =>
       { c with vals := keep.map (fun i => c.vals.getD i Val.na) }) },
   { duplicatesRemoved := t.dupCount })

/-- Clip record of `_clip_outliers_iqr`. -/
structure ClipRecord where
  columnsTouched : Nat
  rowsImpacted : Nat
  detail : List (String × Nat)
deriving DecidableEq, Repr

/-- Per-column body of `_clip_outliers_iqr` (analysis.py lines 217-233):
skip when the IQR is NaN or zero, otherwise clip values outside
`[q1 - 1.5*iqr, q3 + 1.5*iqr]` (missing cells are untouched; a column
with zero outliers is untouched and unrecorded). -/
def clipCol (c : Col) : Col × Option (String × Nat) :=
  let nums := c.nums
  match pdQuantile nums (qMk 1 4), pdQuantile nums (qMk 3 4) with
  | some q1, some q3 =>
    let iqr := qSub q3 q1
    if iqr = 0 then (c, none)
    else
      let lower := qSub q1 (qMul (qMk 3 2) iqr)
      let upper := qAdd q3 (qMul (qMk 3 2) iqr)
      let outlierCount := nums.countP (fun x => decide (x < lower) || decide (upper < x))
      if outlierCount = 0 then (c, none)
      else
        ({ c with vals := c.vals.map (fun v =>
            match v with
            | Val.num q => Val.num (qMin (qMax q lower) upper)
            | w => w) },
         some (c.name, outlierCount))
  | _, _ => (c, none)

/-- Embedding of `_clip_outliers_iqr` (analysis.py lines 212-240);
`select_dtypes(include=[np.number])` selects the numeric columns only. -/
def clipOutliersIqr (t : Table) : Table × ClipRecord :=
  let pairs := t.cols.map (fun c =>
    if c.dtype = Dtype.numeric then clipCol c else (c, none))
  let detail := pairs.filterMap Prod.snd
  ({ nRows := t.nRows, cols := pairs.map Prod.fst },
   { columnsTouched := detail.length,
     rowsImpacted := (detail.map Prod.snd).sum,
     detail := detail })

/-- Norm record of `_normalize_categories`. -/
structure NormRecord where
  columnsTouched : Nat
  rowsImpacted : Nat
  detail : List (String × Nat)
deriving DecidableEq, Repr

/-- Normalized form of one cell: missing stays missing, any non-missing
value becomes the normalized string of its Python `str()` form
(`astype(str)` then strip/collapse/lower, with nulls masked back). -/
def normCell (L : StatLib) (v : Val) : Val :=
  match v with
  | Val.na => Val.na
  | w => Val.str (normalizeText (pyStr L w))

/-- Changed-cell count of `_normalize_categories` (line 261): non-missing
cells whose normalized form differs from their original string form
(null positions compare equal on both sides of the fillna comparison). -/
def normChangedCount (L : StatLib) (c : Col) : Nat :=
  c.vals.countP (fun v =>
    match v with
    | Val.na => false
    | w => decide (normalizeText (pyStr L w) ≠ pyStr L w))

/-- Per-column body of `_normalize_categories` (analysis.py lines 248-264):
a column is replaced (and recorded) only when at least one cell changed. -/
def normalizeCol (L : StatLib) (c : Col) : Col × Option (String × Nat) :=
  let changed := normChangedCount L c
  if changed = 0 then (c, none)
  else ({ c with vals := c.vals.map (normCell L) }, some (c.name, changed))

/-- Embedding of `_normalize_categories` (analysis.py lines 243-271);
`select_dtypes(include=["object", "category"])` selects object columns. -/
def normalizeCategories (L : StatLib) (t : Table) : Table × NormRecord :=
  let pairs := t.cols.map (fun c =>
    if c.dtype = Dtype.object then normalizeCol L c else (c, none))
  let detail := pairs.filterMap Prod.snd
  ({ nRows := t.nRows, cols := pairs.map Prod.fst },
   { columnsTouched := detail.length,
     rowsImpacted := (detail.map Prod.snd).sum,
     detail := detail })

/-- Skew record of `_transform_skewed_numeric`. -/
structure SkewRecord where
  columnsTouched : Nat
  detail : List String
deriving DecidableEq, Repr

/-- Skew gate of `_transform_skewed_numeric` (line 282): proceed only when
the skewness is defined and its absolute value reaches the threshold 1. -/
def skewGate (L : StatLib) (c : Col) : Bool :=
  match pdSkew L c.nums with
  | none => false
  | some s => decide (1 ≤ qAbs s)

/-- Min gate of `_transform_skewed_numeric` (line 284): skip when
`series.min() < 0`; a NaN minimum (empty column) compares false and
does not skip, exactly as in Python. -/
def skewMinNonNeg (c : Col) : Bool :=
  match pdMin c.nums with
  | none => true
  | some m => decide (0 ≤ m)

/-- Per-column body of `_transform_skewed_numeric` (lines 279-288). -/
def skewCol (L : StatLib) (c : Col) : Col × Option String :=
  if skewGate L c && skewMinNonNeg c then
    ({ c with vals := c.vals.map (fun v =>
        match v with
        | Val.num q => Val.num (L.log1p q)
        | w => w) },
     some c.name)
  else (c, none)

/-- Embedding of `_transform_skewed_numeric` (analysis.py lines 274-294). -/
def transformSkewed (L : StatLib) (t : Table) : Table × SkewRecord :=
  let pairs := t.cols.map (fun c =>
    if c.dtype = Dtype.numeric then skewCol L c else (c, none))
  let detail := pairs.filterMap Prod.snd
  ({ nRows := t.nRows, cols := pairs.map Prod.fst },
   { columnsTouched := detail.length, detail := detail })

/-- Numeric summary entry of `profile_dataframe` (lines 103-115).  Pandas
numeric reductions are modelled uniformly as `np.float64` scalars passed
through `_to_native`. -/
structure NumStats where
  column : String
  count : Nat
  mean : JVal
  median : JVal
  std : JVal
  minV : JVal
  maxV : JVal
  skew : JVal
deriving DecidableEq, Repr

/-- Embedding of one `numeric_summary` entry as assembled in the loop of
`profile_dataframe` (lines 103-115), before the `json_ready` wrapper. -/
def numStatsOf (L : StatLib) (c : Col) : NumStats :=
  let nums := c.nums
  { column := c.name,
    count := nums.length,
    mean := statToNative L (pdMean nums),
    median := statToNative L (pdMedian nums),
    std := statToNative L (pdStd L nums),
    minV := statToNative L (pdMin nums),
    maxV := statToNative L (pdMax nums),
    skew := statToNative L (pdSkew L nums) }

/-- `json_ready` recursing into one `numeric_summary` dict: `_to_native`
is applied a second time to every field value (the column name is a
plain string and the count a plain int, both unchanged by it). -/
def jsonReadyStats (e : NumStats) : NumStats :=
  { e with
    mean := jsonReadyScalar e.mean,
    median := jsonReadyScalar e.median,
    std := jsonReadyScalar e.std,
    minV := jsonReadyScalar e.minV,
    maxV := jsonReadyScalar e.maxV,
    skew := jsonReadyScalar e.skew }

/-- Profile of a table, the fields of `profile_dataframe` referenced by
the verified properties (the per-column dtype/missing listing, the
categorical top-5 summary and the high-correlation pairs are assembled
from the same table and are not referenced by any claim). -/
structure Profile where
  rows : Nat
  columns : Nat
  duplicateRows : Nat
  missingCells : Nat
  numericSummary : List NumStats
deriving DecidableEq, Repr

/-- Embedding of `profile_dataframe` (analysis.py lines 84-143),
including the `json_ready(...)` wrapper of the returned dict (line 132):
its second `_to_native` pass acts on the numeric-summary scalars
(`jsonReadyScalar` per field); the top-level counts are plain ints it
leaves unchanged. -/
def profileTable (L : StatLib) (t : Table) : Profile :=
  { rows := t.nRows,
    columns := t.cols.length,
    duplicateRows := t.dupCount,
    missingCells := t.missingCells,
    numericSummary :=
      (t.cols.filter (fun c => c.dtype = Dtype.numeric)).map
        (fun c => jsonReadyStats (numStatsOf L c)) }

/-- The assembled quality report of `run_automated_eda_pipeline`. -/
structure Report where
  before : Profile
  typeConversions : List Conversion
  missingFix : FillRecord
  dedupeFix : DedupRecord
  outlierFix : ClipRecord
  categoryFix : NormRecord
  skewFix : SkewRecord
  after : Profile
  duplicateRowsBefore : Nat
  duplicateRowsAfter : Nat
  missingCellsBefore : Nat
  missingCellsAfter : Nat
deriving DecidableEq, Repr

/-- Embedding of `run_automated_eda_pipeline` (analysis.py lines 297-354):
profile before, infer types, fill missing, drop duplicates, clip
outliers, normalize text, correct skew, profile after, assemble the
report with the quality delta. -/
def runPipeline (L : StatLib) (df : Table) : Table × Report :=
  let before := profileTable L df
  let ti := inferTable L df
  let fm := fillMissingValues ti.1
  let dd := dropDuplicates fm.1
  let co := clipOutliersIqr dd.1
  let nc := normalizeCategories L co.1
  let sk := transformSkewed L nc.1
  let after := profileTable L sk.1
  (sk.1,
   { before := before,
     typeConversions := ti.2,
     missingFix := fm.2,
     dedupeFix := dd.2,
     outlierFix := co.2,
     categoryFix := nc.2,
     skewFix := sk.2,
     after := after,
     duplicateRowsBefore := before.duplicateRows,
     duplicateRowsAfter := after.duplicateRows,
     missingCellsBefore := before.missingCells,
     missingCellsAfter := after.missingCells })

/-- Error raised by `ingest_csv_bytes` for empty or unparseable input —
the `ValueError` of ingestion.py, the spec's `InvalidInputError`. -/
inductive IngestError where
  | invalidInput (msg : String)
deriving DecidableEq, Repr

/-- Embedding of the validation-and-pipeline core of `ingest_csv_bytes`
(ingestion.py lines 18-51): reject a missing file name, empty bytes,
unparseable bytes (`parseCsv` models `pd.read_csv`) and an empty frame,
all before any pipeline stage runs; persistence/benchmarking are
external collaborators and are not modelled. -/
def ingestCsvBytes (L : StatLib) (parseCsv : List Nat → Option Table)
    (raw : List Nat) (sourceFile : String) (autoFix : Bool) :
    Except IngestError (Table × Option Report) :=
  if sourceFile = "" then
    Except.error (IngestError.invalidInput "A file name is required.")
  else if raw = [] then
    Except.error (IngestError.invalidInput "Uploaded CSV is empty.")
  else
    match parseCsv raw with
    | none => Except.error (IngestError.invalidInput "CSV parsing failed.")
    | some df =>
      if df.nRows = 0 ∨ df.cols.length = 0 then
        Except.error (IngestError.invalidInput "CSV has no rows.")
      else if autoFix then
        let r := runPipeline L df
        Except.ok (r.1, some r.2)
      else Except.ok (df, none)

/-!
Embedding of the batch scheduler (`backend/app/batch.py`).  The registry
state is explicit; `time.time()` / `uuid4()` are opaque inputs.  The code
holds its lock only for bookkeeping, so another thread may mutate the
registry while a run is scanning or ingesting; this is modelled by an
`interleave` schedule applied once per file-loop iteration, at the point
where `run_job` re-acquires the lock to read the live job (batch.py lines
286-292).
-/

/-- One observation of a file on disk: absolute path, mtime, size. -/
structure FileObs where
  path : String
  mtimeNs : Nat
  sizeBytes : Nat
deriving DecidableEq, Repr

/-- Embedding of `_file_signature` (batch.py lines 22-24): the string
`"mtime_ns:size"`. -/
def fileSignature (f : FileObs) : String :=
  Nat.repr f.mtimeNs ++ ":" ++ Nat.repr f.sizeBytes

/-- Lookup in a string-keyed association list (a Python dict whose
insertion order is kept). -/
def alistLookup {α : Type} (l : List (String × α)) (k : String) : Option α :=
  (l.find? (fun p => decide (p.1 = k))).map Prod.snd

/-- Assignment `d[k] = v` on a Python dict: overwrite in place (keeping
the key's position) when the key is present, else append. -/
def alistInsert {α : Type} : List (String × α) → String → α → List (String × α)
  | [], k, v => [(k, v)]
  | p :: l, k, v => if p.1 = k then (k, v) :: l else p :: alistInsert l k v

/-- A registered batch job (the dict built in `create_job`). -/
structure BJob where
  jobId : String
  name : String
  watchDir : String
  pollSeconds : Nat
  autoFix : Bool
  enabled : Bool
  lastRunAt : Option Nat
  lastStatus : String
  lastError : Option String
  processedSignatures : List (String × String)
deriving DecidableEq, Repr

/-- Reference to a dataset created by one successful ingestion. -/
structure DatasetRef where
  datasetId : String
  sourcePath : String
deriving DecidableEq, Repr

/-- A run record as appended to the registry's bounded history. -/
structure RunRec where
  runId : String
  jobId : String
  jobName : String
  triggeredBy : String
  startedAt : Nat
  finishedAt : Nat
  status : String
  filesSeen : Nat
  filesProcessed : Nat
  datasetsCreated : List DatasetRef
  errors : List String
deriving DecidableEq, Repr

/-- The BatchManager's guarded state: jobs, bounded run history, the set of
in-progress job ids and the next-due timestamp map. -/
structure BState where
  jobs : List BJob
  runs : List RunRec
  runningJobs : List String
  nextRunTs : List (String × Nat)
deriving DecidableEq, Repr

/-- Embedding of `_find_job`: first job with the given id. -/
def findJob (s : BState) (jobId : String) : Option BJob :=
  s.jobs.find? (fun j => decide (j.jobId = jobId))

/-- Mutate the job with the given id in place (job ids are unique uuids). -/
def setJob (s : BState) (jobId : String) (f : BJob → BJob) : BState :=
  { s with jobs := s.jobs.map (fun j => if j.jobId = jobId then f j else j) }

/-- Bound on the retained run history (batch.py line 15). -/
def MAX_RUN_HISTORY : Nat := 300

/-- Python `l[-n:]`: the most recent `n` entries. -/
def takeLast (l : List RunRec) (n : Nat) : List RunRec := l.drop (l.length - n)

/-- External world of one run: the snapshot watch directory's existence,
the sorted recursive csv listing, the external ingestion collaborator
(`ingest_csv_bytes`, returning a dataset id or an error message), and
the schedule of concurrent registry mutations applied while the lock is
free before each file's bookkeeping. -/
structure RunEnv where
  dirExists : String → Bool
  filesUnder : String → List FileObs
  ingest : FileObs → Bool → Except String String
  interleave : Nat → BState → BState

/-- Exception escaping `run_job`: `KeyError`, the `RuntimeError` of the
already-running guard, or a `ValueError`. -/
inductive RunErr where
  | keyError (jobId : String)
  | alreadyRunning
  | valueError (msg : String)
deriving DecidableEq, Repr

/-- Snapshot of the job's fields taken while acquiring the run slot
(batch.py lines 259-265). -/
structure JobSnapshot where
  jobId : String
  name : String
  watchDir : String
  autoFix : Bool
  pollSeconds : Nat
deriving DecidableEq, Repr

/-- Accumulator of the per-file loop of `run_job`. -/
structure LoopState where
  st : BState
  errors : List String
  created : List DatasetRef
  filesProcessed : Nat
deriving Repr

/-- Embedding of one iteration of the file loop (batch.py lines 282-321):
apply the concurrent mutations, re-read the live job under the lock
(KeyError if it vanished — raised outside the per-file handler, so it
propagates), skip when the stored signature equals the current one,
otherwise ingest with the LIVE job's `auto_fix`; on success record the
dataset and store the signature on the (re-found) live job, on failure
append the per-file error string and continue. -/
def processFile (env : RunEnv) (jobId : String) (idx : Nat) (acc : LoopState)
    (f : FileObs) : Except (RunErr × BState) LoopState :=
  let s := env.interleave idx acc.st
  match findJob s jobId with
  | none => Except.error (RunErr.keyError jobId, s)
  | some live =>
    let signature := fileSignature f
    let known := alistLookup live.processedSignatures f.path
    let autoFix := live.autoFix
    if known = some signature then
      Except.ok { acc with st := s }
    else
      match env.ingest f autoFix with
      | Except.ok datasetId =>
        let s2 :=
          match findJob s jobId with
          | some _ => setJob s jobId (fun j =>
              { j with processedSignatures :=
                  alistInsert j.processedSignatures f.path signature })
          | none => s
        Except.ok { st := s2, errors := acc.errors,
                    created := acc.created ++ [⟨datasetId, f.path⟩],
                    filesProcessed := acc.filesProcessed + 1 }
      | Except.error msg =>
        Except.ok { acc with
          st := s,
          errors := acc.errors ++ [f.path ++ ": " ++ msg] }

/-- The whole file loop of `run_job`. -/
def processFiles (env : RunEnv) (jobId : String) (s : BState)
    (files : List FileObs) : Except (RunErr × BState) LoopState :=
  files.enum.foldlM (fun acc p => processFile env jobId p.1 acc p.2)
    { st := s, errors := [], created := [], filesProcessed := 0 }

/-- Ternary status rule of batch.py lines 323-328. -/
def deriveStatus (errors : List String) (filesProcessed : Nat) : String :=
  if errors ≠ [] ∧ filesProcessed = 0 then "failed"
  else if errors ≠ [] then "partial_success"
  else "success"

/-- Final bookkeeping of `run_job` (batch.py lines 344-354): update the
live job's last-run fields and its next-due timestamp (using the LIVE
`poll_seconds`), then append the run record to the bounded history. -/
def finishRun (s : BState) (jobId : String) (record : RunRec) (now : Nat) :
    BState :=
  let s1 :=
    match findJob s jobId with
    | some live =>
      let s2 := setJob s jobId (fun j =>
        { j with lastRunAt := some record.finishedAt,
                 lastStatus := record.status,
                 lastError := record.errors.head? })
      { s2 with nextRunTs := alistInsert s2.nextRunTs jobId (now + live.pollSeconds) }
    | none => s
  { s1 with runs := takeLast (s1.runs ++ [record]) MAX_RUN_HISTORY }

/-- Release of the run slot in the `finally` block (batch.py lines 357-359). -/
def discardRunning (s : BState) (jobId : String) : BState :=
  { s with runningJobs := s.runningJobs.filter (fun j => decide (j ≠ jobId)) }

/-- Embedding of `BatchManager.run_job` (batch.py lines 250-359).  Returns
the registry state after the `finally` block together with the outcome:
a run record, or the exception that propagated out (KeyError for an
unknown job, RuntimeError when already running, ValueError — uncaught,
there is no `except` on the outer try — when the snapshot watch
directory is missing or the job vanishes mid-run). -/
def runJob (env : RunEnv) (s0 : BState) (jobId runId triggeredBy : String)
    (now : Nat) : BState × Except RunErr RunRec :=
  match findJob s0 jobId with
  | none => (s0, Except.error (RunErr.keyError jobId))
  | some job =>
    if jobId ∈ s0.runningJobs then (s0, Except.error RunErr.alreadyRunning)
    else
      let snapshot : JobSnapshot :=
        ⟨job.jobId, job.name, job.watchDir, job.autoFix, job.pollSeconds⟩
      let s1 : BState := { s0 with runningJobs := s0.runningJobs ++ [jobId] }
      let body : BState × Except RunErr RunRec :=
        if ! env.dirExists snapshot.watchDir then
          (s1, Except.error (RunErr.valueError
            ("Watch directory is missing: " ++ snapshot.watchDir)))
        else
          let files := env.filesUnder snapshot.watchDir
          match processFiles env jobId s1 files with
          | Except.error e => (e.2, Except.error e.1)
          | Except.ok ls =>
            let status := deriveStatus ls.errors ls.filesProcessed
            let record : RunRec :=
              { runId := runId, jobId := jobId, jobName := snapshot.name,
                triggeredBy := triggeredBy, startedAt := now, finishedAt := now,
                status := status, filesSeen := files.length,
                filesProcessed := ls.filesProcessed,
                datasetsCreated := ls.created, errors := ls.errors }
            (finishRun ls.st jobId record now, Except.ok record)
      (discardRunning body.1 jobId, body.2)

/-- Due-job scan of one scheduler tick (batch.py lines 101-112): for every
enabled, not-running job whose next-due timestamp has elapsed, mark it
due and advance its timestamp by its interval. -/
def dueScan (s : BState) (now : Nat) : BState × List String :=
  s.jobs.foldl (fun acc job =>
    if ! job.enabled then acc
    else
      let nextTs := (alistLookup acc.1.nextRunTs job.jobId).getD (now + job.pollSeconds)
      if nextTs ≤ now ∧ job.jobId ∉ acc.1.runningJobs then
        ({ acc.1 with nextRunTs := alistInsert acc.1.nextRunTs job.jobId (now + job.pollSeconds) },
         acc.2 ++ [job.jobId])
      else acc) (s, [])

/-- Sequential execution of the due jobs (batch.py lines 114-115): the
calls to `run_job` are NOT wrapped in any handler, so the first
propagating exception terminates the scheduler loop (returned as
`some e`). -/
def runDueJobs (env : RunEnv) (runIdOf : String → String) (now : Nat) :
    List String → BState → BState × Option RunErr
  | [], s => (s, none)
  | jobId :: rest, s =>
    let r := runJob env s jobId (runIdOf jobId) "scheduler" now
    match r.2 with
    | Except.error e => (r.1, some e)
    | Except.ok _ => runDueJobs env runIdOf now rest r.1

/-- One tick of `_run_loop` (batch.py lines 100-115): scan for due jobs
under the lock, then run them sequentially outside it.  A `some`
second component is an exception that escaped the tick and killed the
scheduler thread. -/
def runLoopTick (env : RunEnv) (runIdOf : String → String) (s : BState)
    (now : Nat) : BState × Option RunErr :=
  let scan := dueScan s now
  runDueJobs env runIdOf now scan.2 scan.1

/-- Outcome of the pure mirror of the file loop (used to reason about
`processFiles` when no concurrent mutation interleaves). -/
structure SimOut where
  sigs : List (String × String)
  errors : List String
  created : List DatasetRef
  processed : Nat
deriving DecidableEq, Repr

/-- Pure mirror of the file loop of `run_job` under a trivial interleave
schedule: thread only the signature map, collecting errors, created
datasets and the processed count exactly as the loop does. -/
def loopSim (ing : FileObs → Bool → Except String String) (af : Bool)
    (sigs : List (String × String)) : List FileObs → SimOut
  | [] => ⟨sigs, [], [], 0⟩
  | f :: fs =>
    if alistLookup sigs f.path = some (fileSignature f) then
      loopSim ing af sigs fs
    else
      match ing f af with
      | Except.ok d =>
        let r := loopSim ing af (alistInsert sigs f.path (fileSignature f)) fs
        ⟨r.sigs, r.errors, ⟨d, f.path⟩ :: r.created, r.processed + 1⟩
      | Except.error m =>
        let r := loopSim ing af sigs fs
        ⟨r.sigs, (f.path ++ ": " ++ m) :: r.errors, r.created, r.processed⟩

/-- The cleanliness premise of the idempotence property, computed by the
embedded stage gates themselves: no missing cells, no duplicate rows,
no numeric column the IQR capper would touch, no numeric column passing
the skew gate, and every object column already in normalized text form. -/
def CleanTable (L : StatLib) (t : Table) : Prop :=
  t.missingCells = 0 ∧ t.dupCount = 0 ∧
  (∀ c ∈ t.cols, c.dtype = Dtype.numeric → (clipCol c).2 = none) ∧
  (∀ c ∈ t.cols, c.dtype = Dtype.numeric → skewGate L c = false) ∧
  (∀ c ∈ t.cols, c.dtype = Dtype.object → normChangedCount L c = 0)

/-- No column is coerced by the type-inference pass. -/
def NoTypeCoercion (L : StatLib) (t : Table) : Prop :=
  ∀ c ∈ t.cols, (inferCol L c).2 = none

/-! Concrete fixtures used by the counterexamples and witnesses. -/

/-- Object column whose two values differ only by letter case. -/
def tableCityCase : Table :=
  ⟨2, [⟨"city", Dtype.object, [Val.str "A", Val.str "a"]⟩]⟩

/-- Object column of numeric string literals. -/
def tableDigitText : Table :=
  ⟨3, [⟨"v", Dtype.object, [Val.str "0", Val.str "1", Val.str "2"]⟩]⟩

/-- Numeric column with a single observation (sample std is undefined). -/
def tableSingleNum : Table :=
  ⟨1, [⟨"x", Dtype.numeric, [Val.num 5]⟩]⟩

/-- Numeric column with one missing cell. -/
def tableOneMissing : Table :=
  ⟨2, [⟨"x", Dtype.numeric, [Val.num 1, Val.na]⟩]⟩

/-- Already-clean object column: distinct, normalized, non-coercible text. -/
def tableCleanText : Table :=
  ⟨2, [⟨"c", Dtype.object, [Val.str "a", Val.str "b"]⟩]⟩

/-- Object column mixing an unnormalized string, a number stored as an
object, and a missing cell. -/
def tableNormMixed : Table :=
  ⟨3, [⟨"c", Dtype.object, [Val.str " A", Val.num 5, Val.na]⟩]⟩

/-- A registered job watching `/w` with auto-fix on. -/
def jobJ : BJob := ⟨"j", "Job", "/w", 60, true, true, none, "idle", none, []⟩

/-- Registry holding `jobJ`, idle. -/
def stateS0 : BState := ⟨[jobJ], [], [], []⟩

/-- Registry holding `jobJ` while a run of it is in progress. -/
def stateRunning : BState := ⟨[jobJ], [], ["j"], []⟩

/-- Registry holding `jobJ` with an elapsed next-due timestamp. -/
def stateTick : BState := ⟨[jobJ], [], [], [("j", 5)]⟩

/-- A csv file observation under the watch dir. -/
def fileA : FileObs := ⟨"/w/a.csv", 7, 3⟩

/-- A second csv file observation under the watch dir. -/
def fileB : FileObs := ⟨"/w/b.csv", 9, 4⟩

/-- Environment in which a concurrent `update_job` flips the job's
`auto_fix` to false while the run holds no lock; the ingestion
collaborator reports back which flag it received. -/
def envLiveFlip : RunEnv :=
  ⟨fun _ => true, fun _ => [fileA],
   fun _ af => Except.ok (if af then "fixed" else "raw"),
   fun _ s => setJob s "j" (fun j => { j with autoFix := false })⟩

/-- Environment whose watch directory has disappeared. -/
def envNoDir : RunEnv :=
  ⟨fun _ => false, fun _ => [], fun _ _ => Except.error "boom", fun _ s => s⟩

/-- Environment with two ingestible files and an always-successful
ingestion collaborator, no concurrency. -/
def envTwoFiles : RunEnv :=
  ⟨fun _ => true, fun _ => [fileA, fileB],
   fun f _ => Except.ok ("ds-" ++ f.path), fun _ s => s⟩

/-- Environment whose single file always fails to ingest. -/
def envAllFail : RunEnv :=
  ⟨fun _ => true, fun _ => [fileA],
   fun _ _ => Except.error "parse error", fun _ s => s⟩

/-- Store one signature on a job (the write of batch.py line 319). -/
def sigUpdate (path sig : String) : BJob → BJob :=
  fun x => { x with
    processedSignatures := alistInsert x.processedSignatures path sig }

/-- Replace a job's whole signature map. -/
def sigSet (sigs : List (String × String)) : BJob → BJob :=
  fun x => { x with processedSignatures := sigs }

/-! ### Association-list and registry helper lemmas -/

theorem alistLookup_insert {α : Type} (l : List (String × α)) (k : String) (v : α) :
    alistLookup (alistInsert l k v) k = some v := by
  induction l with
  | nil =>
    show ([(k, v)].find? (fun q => decide (q.1 = k))).map Prod.snd = some v
    rw [List.find?_cons_of_pos _ (by simp)]
    rfl
  | cons p l ih =>
    simp only [alistInsert]
    by_cases hp : p.1 = k
    · rw [if_pos hp]
      show (((k, v) :: l).find? (fun q => decide (q.1 = k))).map Prod.snd = some v
      rw [List.find?_cons_of_pos _ (by simp)]
      rfl
    · rw [if_neg hp]
      show ((p :: alistInsert l k v).find? (fun q => decide (q.1 = k))).map Prod.snd = some v
      rw [List.find?_cons_of_neg _ (by simp [hp])]
      exact ih

theorem alistLookup_insert_ne {α : Type} (l : List (String × α)) (k k' : String)
    (v : α) (h : k' ≠ k) :
    alistLookup (alistInsert l k v) k' = alistLookup l k' := by
  induction l with
  | nil =>
    show ([(k, v)].find? (fun q => decide (q.1 = k'))).map Prod.snd = _
    rw [List.find?_cons_of_neg _ (by simp [Ne.symm h])]
    rfl
  | cons p l ih =>
    simp only [alistInsert]
    by_cases hp : p.1 = k
    · rw [if_pos hp]
      show (((k, v) :: l).find? (fun q => decide (q.1 = k'))).map Prod.snd =
        ((p :: l).find? (fun q => decide (q.1 = k'))).map Prod.snd
      rw [List.find?_cons_of_neg _ (by simp [Ne.symm h]),
        List.find?_cons_of_neg _ (by simp [hp ▸ Ne.symm h])]
    · rw [if_neg hp]
      by_cases hp' : p.1 = k'
      · show ((p :: alistInsert l k v).find? (fun q => decide (q.1 = k'))).map Prod.snd =
          ((p :: l).find? (fun q => decide (q.1 = k'))).map Prod.snd
        rw [List.find?_cons_of_pos _ (by simp [hp']),
          List.find?_cons_of_pos _ (by simp [hp'])]
      · show ((p :: alistInsert l k v).find? (fun q => decide (q.1 = k'))).map Prod.snd =
          ((p :: l).find? (fun q => decide (q.1 = k'))).map Prod.snd
        rw [List.find?_cons_of_neg _ (by simp [hp']),
          List.find?_cons_of_neg _ (by simp [hp'])]
        exact ih

theorem find_map_update (l : List BJob) (jid : String) (g : BJob → BJob)
    (hpres : ∀ x, (g x).jobId = x.jobId) (j : BJob)
    (h : l.find? (fun x => decide (x.jobId = jid)) = some j) :
    (l.map (fun x => if x.jobId = jid then g x else x)).find?
      (fun x => decide (x.jobId = jid)) = some (g j) := by
  induction l with
  | nil => simp at h
  | cons a l ih =>
    by_cases ha : a.jobId = jid
    · rw [List.find?_cons_of_pos _ (by simp [ha])] at h
      injection h with h
      subst h
      have hm : (a :: l).map (fun x => if x.jobId = jid then g x else x) =
          g a :: l.map (fun x => if x.jobId = jid then g x else x) := by
        simp [ha]
      rw [hm, List.find?_cons_of_pos _ (by simp [hpres, ha])]
    · rw [List.find?_cons_of_neg _ (by simp [ha])] at h
      have hm : (a :: l).map (fun x => if x.jobId = jid then g x else x) =
          a :: l.map (fun x => if x.jobId = jid then g x else x) := by
        simp [ha]
      rw [hm, List.find?_cons_of_neg _ (by simp [ha])]
      exact ih h

theorem findJob_setJob (s : BState) (jid : String) (g : BJob → BJob) (j : BJob)
    (hpres : ∀ x, (g x).jobId = x.jobId) (hfind : findJob s jid = some j) :
    findJob (setJob s jid g) jid = some (g j) :=
  find_map_update s.jobs jid g hpres j hfind

theorem setJob_setJob (s : BState) (jid : String) (g1 g2 : BJob → BJob)
    (hpres : ∀ x, (g1 x).jobId = x.jobId) :
    setJob (setJob s jid g1) jid g2 = setJob s jid (fun x => g2 (g1 x)) := by
  simp only [setJob, List.map_map]
  congr 1
  apply List.map_congr_left
  intro x _
  by_cases hx : x.jobId = jid
  · simp [Function.comp, hx, hpres]
  · simp [Function.comp, hx]

theorem setJob_id_of (s : BState) (jid : String) (g : BJob → BJob)
    (hg : ∀ x ∈ s.jobs, x.jobId = jid → g x = x) : setJob s jid g = s := by
  have h : s.jobs.map (fun x => if x.jobId = jid then g x else x) = s.jobs := by
    have h2 : ∀ x ∈ s.jobs, (if x.jobId = jid then g x else x) = id x := by
      intro x hx
      by_cases hxj : x.jobId = jid
      · simp [hxj, hg x hx hxj]
      · simp [hxj]
    rw [List.map_congr_left h2, List.map_id]
  show ({ s with jobs := s.jobs.map _ } : BState) = s
  rw [h]

theorem hone_setJob (s : BState) (jid : String) (g : BJob → BJob) (j : BJob)
    (hone : ∀ x ∈ s.jobs, x.jobId = jid → x = j) :
    ∀ x ∈ (setJob s jid g).jobs, x.jobId = jid → x = g j := by
  intro x hx hxj
  simp only [setJob, List.mem_map] at hx
  rcases hx with ⟨y, hy, rfl⟩
  by_cases hyj : y.jobId = jid
  · rw [if_pos hyj] at hxj ⊢
    rw [hone y hy hyj]
  · rw [if_neg hyj] at hxj
    exact absurd hxj hyj

/-! ### File-loop correspondence and run bookkeeping lemmas -/

theorem processFile_skip (env : RunEnv) (henv : env.interleave = fun _ s => s)
    (jid : String) (i : Nat) (s : BState) (j : BJob) (E : List String)
    (C : List DatasetRef) (n : Nat) (f : FileObs)
    (hfind : findJob s jid = some j)
    (hskip : alistLookup j.processedSignatures f.path = some (fileSignature f)) :
    processFile env jid i ⟨s, E, C, n⟩ f = Except.ok ⟨s, E, C, n⟩ := by
  rw [processFile, henv]
  simp [hfind, hskip]

theorem processFile_ok (env : RunEnv) (henv : env.interleave = fun _ s => s)
    (jid : String) (i : Nat) (s : BState) (j : BJob) (E : List String)
    (C : List DatasetRef) (n : Nat) (f : FileObs) (d : String)
    (hfind : findJob s jid = some j)
    (hstale : alistLookup j.processedSignatures f.path ≠ some (fileSignature f))
    (hing : env.ingest f j.autoFix = Except.ok d) :
    processFile env jid i ⟨s, E, C, n⟩ f =
      Except.ok ⟨setJob s jid (sigUpdate f.path (fileSignature f)),
        E, C ++ [⟨d, f.path⟩], n + 1⟩ := by
  rw [processFile, henv]
  simp only [hfind, hstale, hing]
  simp [hstale, hing]
  rfl

theorem processFile_err (env : RunEnv) (henv : env.interleave = fun _ s => s)
    (jid : String) (i : Nat) (s : BState) (j : BJob) (E : List String)
    (C : List DatasetRef) (n : Nat) (f : FileObs) (m : String)
    (hfind : findJob s jid = some j)
    (hstale : alistLookup j.processedSignatures f.path ≠ some (fileSignature f))
    (hing : env.ingest f j.autoFix = Except.error m) :
    processFile env jid i ⟨s, E, C, n⟩ f =
      Except.ok ⟨s, E ++ [f.path ++ ": " ++ m], C, n⟩ := by
  rw [processFile, henv]
  simp [hfind, hstale, hing]



theorem foldlM_processFile_sim (env : RunEnv)
    (henv : env.interleave = fun _ s => s) (jid : String)
    (l : List (Nat × FileObs)) :
    ∀ (s : BState) (j : BJob) (E : List String) (C : List DatasetRef) (n : Nat),
      findJob s jid = some j →
      (∀ x ∈ s.jobs, x.jobId = jid → x = j) →
      (l.foldlM (fun acc p => processFile env jid p.1 acc p.2)
        (⟨s, E, C, n⟩ : LoopState)) =
        Except.ok
          ⟨setJob s jid (sigSet
              (loopSim env.ingest j.autoFix j.processedSignatures (l.map Prod.snd)).sigs),
           E ++ (loopSim env.ingest j.autoFix j.processedSignatures (l.map Prod.snd)).errors,
           C ++ (loopSim env.ingest j.autoFix j.processedSignatures (l.map Prod.snd)).created,
           n + (loopSim env.ingest j.autoFix j.processedSignatures (l.map Prod.snd)).processed⟩ := by
  induction l with
  | nil =>
    intro s j E C n hfind hone
    have hs : setJob s jid (sigSet j.processedSignatures) = s :=
      setJob_id_of _ _ _ (fun x hx hxj => by rw [hone x hx hxj]; rfl)
    simp only [List.map_nil, loopSim, List.foldlM_nil, hs, List.append_nil, Nat.add_zero]
    rfl
  | cons p l ih =>
    intro s j E C n hfind hone
    rw [List.foldlM_cons]
    by_cases hskip : alistLookup j.processedSignatures p.2.path = some (fileSignature p.2)
    · rw [processFile_skip env henv jid p.1 s j E C n p.2 hfind hskip]
      show l.foldlM (fun acc p => processFile env jid p.1 acc p.2) (⟨s, E, C, n⟩ : LoopState) = _
      rw [ih s j E C n hfind hone]
      simp only [List.map_cons, loopSim, if_pos hskip]
    · cases hing : env.ingest p.2 j.autoFix with
      | ok d =>
        rw [processFile_ok env henv jid p.1 s j E C n p.2 d hfind hskip hing]
        show l.foldlM (fun acc p => processFile env jid p.1 acc p.2)
          (⟨setJob s jid (sigUpdate p.2.path (fileSignature p.2)),
            E, C ++ [⟨d, p.2.path⟩], n + 1⟩ : LoopState) = _
        rw [ih (setJob s jid (sigUpdate p.2.path (fileSignature p.2)))
          (sigUpdate p.2.path (fileSignature p.2) j) E (C ++ [DatasetRef.mk d p.2.path]) (n + 1)
          (findJob_setJob s jid _ j (fun x => rfl) hfind)
          (hone_setJob s jid _ j hone)]
        have hA : (sigUpdate p.2.path (fileSignature p.2) j).autoFix = j.autoFix := rfl
        have hS : (sigUpdate p.2.path (fileSignature p.2) j).processedSignatures =
            alistInsert j.processedSignatures p.2.path (fileSignature p.2) := rfl
        rw [hA, hS,
          setJob_setJob s jid (sigUpdate p.2.path (fileSignature p.2)) _ (fun x => rfl)]
        have hcomp : (fun x => sigSet (loopSim env.ingest j.autoFix
            (alistInsert j.processedSignatures p.2.path (fileSignature p.2))
            (l.map Prod.snd)).sigs (sigUpdate p.2.path (fileSignature p.2) x)) =
            sigSet (loopSim env.ingest j.autoFix
              (alistInsert j.processedSignatures p.2.path (fileSignature p.2))
              (l.map Prod.snd)).sigs := funext (fun x => rfl)
        rw [hcomp]
        simp only [List.map_cons, loopSim, if_neg hskip, hing]
        congr 1
        congr 1
        · rw [List.append_assoc, List.singleton_append]
        · omega
      | error m =>
        rw [processFile_err env henv jid p.1 s j E C n p.2 m hfind hskip hing]
        show l.foldlM (fun acc p => processFile env jid p.1 acc p.2)
          (⟨s, E ++ [p.2.path ++ ": " ++ m], C, n⟩ : LoopState) = _
        rw [ih s j (E ++ [p.2.path ++ ": " ++ m]) C n hfind hone]
        simp only [List.map_cons, loopSim, if_neg hskip, hing]
        simp [List.append_assoc]



theorem processFiles_sim (env : RunEnv) (henv : env.interleave = fun _ s => s)
    (jid : String) (files : List FileObs) (s : BState) (j : BJob)
    (hfind : findJob s jid = some j)
    (hone : ∀ x ∈ s.jobs, x.jobId = jid → x = j) :
    processFiles env jid s files = Except.ok
      ⟨setJob s jid (sigSet (loopSim env.ingest j.autoFix j.processedSignatures files).sigs),
       (loopSim env.ingest j.autoFix j.processedSignatures files).errors,
       (loopSim env.ingest j.autoFix j.processedSignatures files).created,
       (loopSim env.ingest j.autoFix j.processedSignatures files).processed⟩ := by
  have h := foldlM_processFile_sim env henv jid files.enum s j [] [] 0 hfind hone
  rw [List.enum_map_snd] at h
  rw [processFiles, h]
  simp

theorem loopSim_all_known (ing : FileObs → Bool → Except String String) (af : Bool)
    (files : List FileObs) :
    ∀ sigs, (∀ f ∈ files, alistLookup sigs f.path = some (fileSignature f)) →
      loopSim ing af sigs files = ⟨sigs, [], [], 0⟩ := by
  induction files with
  | nil => intro sigs _; rfl
  | cons f fs ih =>
    intro sigs h
    rw [loopSim, if_pos (h f (by simp))]
    exact ih sigs (fun g hg => h g (by simp [hg]))

theorem loopSim_sigs_preserve (ing : FileObs → Bool → Except String String) (af : Bool)
    (files : List FileObs) :
    ∀ sigs k, (∀ f ∈ files, f.path ≠ k) →
      alistLookup (loopSim ing af sigs files).sigs k = alistLookup sigs k := by
  induction files with
  | nil => intro sigs k _; rfl
  | cons f fs ih =>
    intro sigs k h
    rw [loopSim]
    by_cases hskip : alistLookup sigs f.path = some (fileSignature f)
    · rw [if_pos hskip]
      exact ih sigs k (fun g hg => h g (by simp [hg]))
    · rw [if_neg hskip]
      cases hing : ing f af with
      | ok d =>
        show alistLookup (loopSim ing af (alistInsert sigs f.path (fileSignature f)) fs).sigs k = _
        rw [ih _ k (fun g hg => h g (by simp [hg])),
          alistLookup_insert_ne _ _ _ _ (Ne.symm (h f (by simp)))]
      | error m =>
        show alistLookup (loopSim ing af sigs fs).sigs k = _
        exact ih sigs k (fun g hg => h g (by simp [hg]))



theorem loopSim_all_ok (ing : FileObs → Bool → Except String String) (af : Bool)
    (files : List FileObs) :
    ∀ sigs, (∀ f ∈ files, ∃ d, ing f af = Except.ok d) →
      (files.map FileObs.path).Nodup →
      (loopSim ing af sigs files).errors = [] ∧
      (∀ f ∈ files, alistLookup (loopSim ing af sigs files).sigs f.path =
        some (fileSignature f)) ∧
      (loopSim ing af sigs files).processed = (files.filter
        (fun f => decide (alistLookup sigs f.path ≠ some (fileSignature f)))).length := by
  induction files with
  | nil => intro sigs _ _; exact ⟨rfl, by simp, rfl⟩
  | cons f fs ih =>
    intro sigs hok hnd
    rw [List.map_cons, List.nodup_cons] at hnd
    have hndf : ∀ g ∈ fs, g.path ≠ f.path := by
      intro g hg hc
      exact hnd.1 (hc ▸ List.mem_map_of_mem FileObs.path hg)
    have hnd' : (fs.map FileObs.path).Nodup := hnd.2
    have hok' : ∀ g ∈ fs, ∃ d, ing g af = Except.ok d := fun g hg => hok g (by simp [hg])
    rw [loopSim]
    by_cases hskip : alistLookup sigs f.path = some (fileSignature f)
    · rw [if_pos hskip]
      rcases ih sigs hok' hnd' with ⟨he, hc, hp⟩
      refine ⟨he, ?_, ?_⟩
      · intro g hg
        rcases List.mem_cons.mp hg with rfl | hg'
        · rw [loopSim_sigs_preserve ing af fs sigs g.path hndf, hskip]
        · exact hc g hg'
      · rw [hp, List.filter_cons_of_neg (by simp [hskip])]
    · rw [if_neg hskip]
      rcases hok f (by simp) with ⟨d, hd⟩
      rw [hd]
      rcases ih (alistInsert sigs f.path (fileSignature f)) hok' hnd' with ⟨he, hc, hp⟩
      refine ⟨he, ?_, ?_⟩
      · intro g hg
        rcases List.mem_cons.mp hg with rfl | hg'
        · show alistLookup (loopSim ing af (alistInsert sigs g.path (fileSignature g)) fs).sigs g.path = _
          rw [loopSim_sigs_preserve ing af fs _ g.path hndf, alistLookup_insert]
        · exact hc g hg'
      · show (loopSim ing af (alistInsert sigs f.path (fileSignature f)) fs).processed + 1 = _
        rw [hp, List.filter_cons_of_pos (by simp [hskip])]
        have hfe : ∀ g ∈ fs,
            (decide (alistLookup (alistInsert sigs f.path (fileSignature f)) g.path ≠
              some (fileSignature g))) =
            (decide (alistLookup sigs g.path ≠ some (fileSignature g))) := by
          intro g hg
          rw [alistLookup_insert_ne _ _ _ _ (hndf g hg)]
        rw [List.filter_congr hfe]
        simp

theorem loopSim_all_fail (ing : FileObs → Bool → Except String String) (af : Bool)
    (files : List FileObs) :
    ∀ sigs, (∀ f ∈ files, ∃ m, ing f af = Except.error m) →
      (loopSim ing af sigs files).sigs = sigs ∧
      (loopSim ing af sigs files).processed = 0 ∧
      (loopSim ing af sigs files).errors.length = (files.filter
        (fun f => decide (alistLookup sigs f.path ≠ some (fileSignature f)))).length := by
  induction files with
  | nil => intro sigs _; exact ⟨rfl, rfl, rfl⟩
  | cons f fs ih =>
    intro sigs hfail
    have hfail' : ∀ g ∈ fs, ∃ m, ing g af = Except.error m := fun g hg => hfail g (by simp [hg])
    rw [loopSim]
    by_cases hskip : alistLookup sigs f.path = some (fileSignature f)
    · rw [if_pos hskip]
      rcases ih sigs hfail' with ⟨hs, hp, he⟩
      exact ⟨hs, hp, by rw [he, List.filter_cons_of_neg (by simp [hskip])]⟩
    · rw [if_neg hskip]
      rcases hfail f (by simp) with ⟨m, hm⟩
      rw [hm]
      rcases ih sigs hfail' with ⟨hs, hp, he⟩
      refine ⟨hs, hp, ?_⟩
      show ((f.path ++ ": " ++ m) :: (loopSim ing af sigs fs).errors).length = _
      rw [List.length_cons, he, List.filter_cons_of_pos (by simp [hskip])]
      simp



theorem runJob_noconc (env : RunEnv) (s0 : BState) (jid rid tb : String)
    (now : Nat) (j : BJob)
    (henv : env.interleave = fun _ s => s)
    (hfind : findJob s0 jid = some j)
    (hone : ∀ x ∈ s0.jobs, x.jobId = jid → x = j)
    (hnr : jid ∉ s0.runningJobs)
    (hdir : env.dirExists j.watchDir = true) :
    runJob env s0 jid rid tb now =
      (discardRunning
        (finishRun
          (setJob { s0 with runningJobs := s0.runningJobs ++ [jid] } jid
            (sigSet (loopSim env.ingest j.autoFix j.processedSignatures
              (env.filesUnder j.watchDir)).sigs))
          jid
          ⟨rid, jid, j.name, tb, now, now,
            deriveStatus
              (loopSim env.ingest j.autoFix j.processedSignatures
                (env.filesUnder j.watchDir)).errors
              (loopSim env.ingest j.autoFix j.processedSignatures
                (env.filesUnder j.watchDir)).processed,
            (env.filesUnder j.watchDir).length,
            (loopSim env.ingest j.autoFix j.processedSignatures
              (env.filesUnder j.watchDir)).processed,
            (loopSim env.ingest j.autoFix j.processedSignatures
              (env.filesUnder j.watchDir)).created,
            (loopSim env.ingest j.autoFix j.processedSignatures
              (env.filesUnder j.watchDir)).errors⟩
          now)
        jid,
       Except.ok
        ⟨rid, jid, j.name, tb, now, now,
          deriveStatus
            (loopSim env.ingest j.autoFix j.processedSignatures
              (env.filesUnder j.watchDir)).errors
            (loopSim env.ingest j.autoFix j.processedSignatures
              (env.filesUnder j.watchDir)).processed,
          (env.filesUnder j.watchDir).length,
          (loopSim env.ingest j.autoFix j.processedSignatures
            (env.filesUnder j.watchDir)).processed,
          (loopSim env.ingest j.autoFix j.processedSignatures
            (env.filesUnder j.watchDir)).created,
          (loopSim env.ingest j.autoFix j.processedSignatures
            (env.filesUnder j.watchDir)).errors⟩) := by
  have hfind1 : findJob { s0 with runningJobs := s0.runningJobs ++ [jid] } jid = some j := hfind
  have hone1 : ∀ x ∈ ({ s0 with runningJobs := s0.runningJobs ++ [jid] } : BState).jobs,
      x.jobId = jid → x = j := hone
  rw [runJob]
  simp only [hfind]
  rw [if_neg hnr]
  simp only [hdir, Bool.not_true, Bool.false_eq_true, if_false,
    processFiles_sim env henv jid (env.filesUnder j.watchDir) _ j hfind1 hone1]



theorem findJob_jobs_congr (s t : BState) (h : s.jobs = t.jobs) (k : String) :
    findJob s k = findJob t k := by
  rw [findJob, findJob, h]

theorem finishRun_jobs (s : BState) (jid : String) (record : RunRec) (now : Nat)
    (jv : BJob) (hfind : findJob s jid = some jv) :
    (finishRun s jid record now).jobs =
      (setJob s jid (fun x => { x with
        lastRunAt := some record.finishedAt,
        lastStatus := record.status,
        lastError := record.errors.head? })).jobs := by
  rw [finishRun]
  simp only [hfind]

theorem finishRun_runs (s : BState) (jid : String) (record : RunRec) (now : Nat) :
    (finishRun s jid record now).runs = takeLast (s.runs ++ [record]) MAX_RUN_HISTORY := by
  rw [finishRun]
  cases h : findJob s jid with
  | none => simp
  | some live => simp [setJob]

theorem discard_not_mem (s : BState) (jid : String) :
    jid ∉ (discardRunning s jid).runningJobs := by
  simp [discardRunning, List.mem_filter]

theorem mem_takeLast_append (l : List RunRec) (x : RunRec) (n : Nat) (hn : 0 < n) :
    x ∈ takeLast (l ++ [x]) n := by
  rw [takeLast]
  have hlen : (l ++ [x]).length - n ≤ l.length := by
    simp only [List.length_append, List.length_singleton]
    omega
  rw [List.drop_append_of_le_length hlen]
  exact List.mem_append_right _ (by simp)

theorem findJob_after_finish (Y : BState) (jid : String) (record : RunRec)
    (now : Nat) (jv : BJob) (hfy : findJob Y jid = some jv) :
    findJob (discardRunning (finishRun Y jid record now) jid) jid =
      some { jv with
        lastRunAt := some record.finishedAt,
        lastStatus := record.status,
        lastError := record.errors.head? } := by
  have e1 : findJob (discardRunning (finishRun Y jid record now) jid) jid =
      findJob (finishRun Y jid record now) jid := findJob_jobs_congr _ _ rfl jid
  rw [e1, findJob_jobs_congr _ _ (finishRun_jobs Y jid record now jv hfy) jid,
    findJob_setJob Y jid (fun y => { y with
      lastRunAt := some record.finishedAt,
      lastStatus := record.status,
      lastError := record.errors.head? }) jv (fun x => rfl) hfy]

theorem hone_after_finish (Y : BState) (jid : String) (record : RunRec)
    (now : Nat) (jv : BJob) (hfy : findJob Y jid = some jv)
    (honeY : ∀ x ∈ Y.jobs, x.jobId = jid → x = jv) :
    ∀ x ∈ (discardRunning (finishRun Y jid record now) jid).jobs, x.jobId = jid →
      x = { jv with
        lastRunAt := some record.finishedAt,
        lastStatus := record.status,
        lastError := record.errors.head? } := by
  intro x hx hxj
  have hx2 : x ∈ (setJob Y jid (fun y => { y with
      lastRunAt := some record.finishedAt,
      lastStatus := record.status,
      lastError := record.errors.head? })).jobs := by
    have e : (discardRunning (finishRun Y jid record now) jid).jobs =
        (finishRun Y jid record now).jobs := rfl
    rw [e, finishRun_jobs Y jid record now jv hfy] at hx
    exact hx
  exact hone_setJob Y jid _ jv honeY x hx2 hxj

theorem runs_after_finish (Y : BState) (jid : String) (record : RunRec) (now : Nat) :
    (discardRunning (finishRun Y jid record now) jid).runs =
      takeLast (Y.runs ++ [record]) MAX_RUN_HISTORY := by
  have e : (discardRunning (finishRun Y jid record now) jid).runs =
      (finishRun Y jid record now).runs := rfl
  rw [e, finishRun_runs]

theorem runJob_noconc_facts (env : RunEnv) (s0 : BState) (jid rid tb : String)
    (now : Nat) (j : BJob)
    (henv : env.interleave = fun _ s => s)
    (hfind : findJob s0 jid = some j)
    (hone : ∀ x ∈ s0.jobs, x.jobId = jid → x = j)
    (hnr : jid ∉ s0.runningJobs)
    (hdir : env.dirExists j.watchDir = true) :
    (runJob env s0 jid rid tb now).2 = Except.ok
      ⟨rid, jid, j.name, tb, now, now,
        deriveStatus
          (loopSim env.ingest j.autoFix j.processedSignatures (env.filesUnder j.watchDir)).errors
          (loopSim env.ingest j.autoFix j.processedSignatures (env.filesUnder j.watchDir)).processed,
        (env.filesUnder j.watchDir).length,
        (loopSim env.ingest j.autoFix j.processedSignatures (env.filesUnder j.watchDir)).processed,
        (loopSim env.ingest j.autoFix j.processedSignatures (env.filesUnder j.watchDir)).created,
        (loopSim env.ingest j.autoFix j.processedSignatures (env.filesUnder j.watchDir)).errors⟩ ∧
    findJob (runJob env s0 jid rid tb now).1 jid = some
      { j with
        processedSignatures :=
          (loopSim env.ingest j.autoFix j.processedSignatures (env.filesUnder j.watchDir)).sigs,
        lastRunAt := some now,
        lastStatus := deriveStatus
          (loopSim env.ingest j.autoFix j.processedSignatures (env.filesUnder j.watchDir)).errors
          (loopSim env.ingest j.autoFix j.processedSignatures (env.filesUnder j.watchDir)).processed,
        lastError :=
          (loopSim env.ingest j.autoFix j.processedSignatures (env.filesUnder j.watchDir)).errors.head? } ∧
    (∀ x ∈ (runJob env s0 jid rid tb now).1.jobs, x.jobId = jid → x =
      { j with
        processedSignatures :=
          (loopSim env.ingest j.autoFix j.processedSignatures (env.filesUnder j.watchDir)).sigs,
        lastRunAt := some now,
        lastStatus := deriveStatus
          (loopSim env.ingest j.autoFix j.processedSignatures (env.filesUnder j.watchDir)).errors
          (loopSim env.ingest j.autoFix j.processedSignatures (env.filesUnder j.watchDir)).processed,
        lastError :=
          (loopSim env.ingest j.autoFix j.processedSignatures (env.filesUnder j.watchDir)).errors.head? }) ∧
    jid ∉ (runJob env s0 jid rid tb now).1.runningJobs ∧
    (runJob env s0 jid rid tb now).1.runs = takeLast (s0.runs ++
      [⟨rid, jid, j.name, tb, now, now,
        deriveStatus
          (loopSim env.ingest j.autoFix j.processedSignatures (env.filesUnder j.watchDir)).errors
          (loopSim env.ingest j.autoFix j.processedSignatures (env.filesUnder j.watchDir)).processed,
        (env.filesUnder j.watchDir).length,
        (loopSim env.ingest j.autoFix j.processedSignatures (env.filesUnder j.watchDir)).processed,
        (loopSim env.ingest j.autoFix j.processedSignatures (env.filesUnder j.watchDir)).created,
        (loopSim env.ingest j.autoFix j.processedSignatures (env.filesUnder j.watchDir)).errors⟩])
      MAX_RUN_HISTORY := by
  have hfind1 : findJob { s0 with runningJobs := s0.runningJobs ++ [jid] } jid = some j := hfind
  have hone1 : ∀ x ∈ ({ s0 with runningJobs := s0.runningJobs ++ [jid] } : BState).jobs,
      x.jobId = jid → x = j := hone
  have hfy := findJob_setJob { s0 with runningJobs := s0.runningJobs ++ [jid] } jid
    (sigSet (loopSim env.ingest j.autoFix j.processedSignatures
      (env.filesUnder j.watchDir)).sigs) j (fun x => rfl) hfind1
  have honeY := hone_setJob { s0 with runningJobs := s0.runningJobs ++ [jid] } jid
    (sigSet (loopSim env.ingest j.autoFix j.processedSignatures
      (env.filesUnder j.watchDir)).sigs) j hone1
  rw [runJob_noconc env s0 jid rid tb now j henv hfind hone hnr hdir]
  exact ⟨rfl, findJob_after_finish _ jid _ now _ hfy,
    hone_after_finish _ jid _ now _ hfy honeY, discard_not_mem _ _,
    runs_after_finish _ jid _ now⟩



/-- Claim C6: a file whose stored signature equals its current signature is
skipped (seen, not processed); a second run over an unchanged, all-successful
file set processes zero files and succeeds; files with a different or absent
signature are the processed ones; and signatures are stored only on
successful ingestion (an all-failing run leaves the map untouched). -/
theorem run_job_signature_dedup :
    (∀ (env : RunEnv) (s0 : BState) (jid rid1 rid2 tb : String) (now1 now2 : Nat) (j : BJob),
      env.interleave = (fun _ s => s) →
      findJob s0 jid = some j →
      (∀ x ∈ s0.jobs, x.jobId = jid → x = j) →
      jid ∉ s0.runningJobs →
      env.dirExists j.watchDir = true →
      ((env.filesUnder j.watchDir).map FileObs.path).Nodup →
      (∀ f ∈ env.filesUnder j.watchDir, ∃ d, env.ingest f j.autoFix = Except.ok d) →
      ∃ r1 r2 : RunRec,
        (runJob env s0 jid rid1 tb now1).2 = Except.ok r1 ∧
        (runJob env (runJob env s0 jid rid1 tb now1).1 jid rid2 tb now2).2 = Except.ok r2 ∧
        r1.filesSeen = (env.filesUnder j.watchDir).length ∧
        r1.filesProcessed = ((env.filesUnder j.watchDir).filter
          (fun f => decide (alistLookup j.processedSignatures f.path ≠
            some (fileSignature f)))).length ∧
        r1.errors = [] ∧
        r2.filesSeen = (env.filesUnder j.watchDir).length ∧
        r2.filesProcessed = 0 ∧ r2.status = "success" ∧ r2.errors = []) ∧
    (∀ (env : RunEnv) (s0 : BState) (jid rid tb : String) (now : Nat) (j : BJob),
      env.interleave = (fun _ s => s) →
      findJob s0 jid = some j →
      (∀ x ∈ s0.jobs, x.jobId = jid → x = j) →
      jid ∉ s0.runningJobs →
      env.dirExists j.watchDir = true →
      (∀ f ∈ env.filesUnder j.watchDir, ∃ m, env.ingest f j.autoFix = Except.error m) →
      ∃ r : RunRec,
        (runJob env s0 jid rid tb now).2 = Except.ok r ∧
        r.filesProcessed = 0 ∧
        (findJob (runJob env s0 jid rid tb now).1 jid).map BJob.processedSignatures =
          some j.processedSignatures) := by
  constructor
  · intro env s0 jid rid1 rid2 tb now1 now2 j henv hfind hone hnr hdir hnd hok
    obtain ⟨hr1, hf1, ho1, hn1, hrn1⟩ :=
      runJob_noconc_facts env s0 jid rid1 tb now1 j henv hfind hone hnr hdir
    obtain ⟨hE1, hC1, hP1⟩ :=
      loopSim_all_ok env.ingest j.autoFix (env.filesUnder j.watchDir)
        j.processedSignatures hok hnd
    obtain ⟨hr2, hf2, ho2, hn2, hrn2⟩ :=
      runJob_noconc_facts env (runJob env s0 jid rid1 tb now1).1 jid rid2 tb now2
        _ henv hf1 ho1 hn1 hdir
    have hknown := loopSim_all_known env.ingest j.autoFix (env.filesUnder j.watchDir)
      (loopSim env.ingest j.autoFix j.processedSignatures (env.filesUnder j.watchDir)).sigs hC1
    refine ⟨_, _, hr1, hr2, rfl, hP1, hE1, rfl, ?_, ?_, ?_⟩
    · show (loopSim env.ingest j.autoFix
        (loopSim env.ingest j.autoFix j.processedSignatures (env.filesUnder j.watchDir)).sigs
        (env.filesUnder j.watchDir)).processed = 0
      rw [hknown]
    · show deriveStatus
        (loopSim env.ingest j.autoFix
          (loopSim env.ingest j.autoFix j.processedSignatures (env.filesUnder j.watchDir)).sigs
          (env.filesUnder j.watchDir)).errors
        (loopSim env.ingest j.autoFix
          (loopSim env.ingest j.autoFix j.processedSignatures (env.filesUnder j.watchDir)).sigs
          (env.filesUnder j.watchDir)).processed = "success"
      rw [hknown]
      rfl
    · show (loopSim env.ingest j.autoFix
        (loopSim env.ingest j.autoFix j.processedSignatures (env.filesUnder j.watchDir)).sigs
        (env.filesUnder j.watchDir)).errors = []
      rw [hknown]
  · intro env s0 jid rid tb now j henv hfind hone hnr hdir hfail
    obtain ⟨hr, hf, ho, hn, hrn⟩ :=
      runJob_noconc_facts env s0 jid rid tb now j henv hfind hone hnr hdir
    obtain ⟨hs, hp, he⟩ :=
      loopSim_all_fail env.ingest j.autoFix (env.filesUnder j.watchDir)
        j.processedSignatures hfail
    refine ⟨_, hr, hp, ?_⟩
    rw [hf]
    show some ((loopSim env.ingest j.autoFix j.processedSignatures
        (env.filesUnder j.watchDir)).sigs) = some j.processedSignatures
    rw [hs]

/-! ### Claim theorems (part 1) -/

/-- Witness for C6: the two-file always-succeeding environment and the
all-failing environment, run from the fresh registry. -/
theorem run_job_signature_dedup_witness :
    (∃ r1 r2 : RunRec,
      (runJob envTwoFiles stateS0 "j" "r1" "manual" 100).2 = Except.ok r1 ∧
      (runJob envTwoFiles (runJob envTwoFiles stateS0 "j" "r1" "manual" 100).1
        "j" "r2" "manual" 200).2 = Except.ok r2 ∧
      r1.filesSeen = (envTwoFiles.filesUnder jobJ.watchDir).length ∧
      r1.filesProcessed = ((envTwoFiles.filesUnder jobJ.watchDir).filter
        (fun f => decide (alistLookup jobJ.processedSignatures f.path ≠
          some (fileSignature f)))).length ∧
      r1.errors = [] ∧
      r2.filesSeen = (envTwoFiles.filesUnder jobJ.watchDir).length ∧
      r2.filesProcessed = 0 ∧ r2.status = "success" ∧ r2.errors = []) ∧
    (∃ r : RunRec,
      (runJob envAllFail stateS0 "j" "r1" "manual" 100).2 = Except.ok r ∧
      r.filesProcessed = 0 ∧
      (findJob (runJob envAllFail stateS0 "j" "r1" "manual" 100).1 "j").map
        BJob.processedSignatures = some jobJ.processedSignatures) :=
  ⟨run_job_signature_dedup.1 envTwoFiles stateS0 "j" "r1" "r2" "manual" 100 200 jobJ
      rfl rfl (by decide) (by decide) rfl (by decide)
      (fun f _ => ⟨"ds-" ++ f.path, rfl⟩),
    run_job_signature_dedup.2 envAllFail stateS0 "j" "r1" "manual" 100 jobJ
      rfl rfl (by decide) (by decide) rfl (fun f _ => ⟨"parse error", rfl⟩)⟩

/-- The second `_to_native` pass of `json_ready` never outputs a float
NaN: the only NaN that can reach it is a plain Python float NaN, which
its `pd.isna` branch maps to `None`. -/
theorem jsonReadyScalar_ne_nan (v : JVal) : jsonReadyScalar v ≠ JVal.nanFloat := by
  cases v <;> simp [jsonReadyScalar]

/-- Claim C3: in the profile of any table, no numeric-summary statistic
is ever a float NaN, and an undefined statistic is reported as the
explicit null: the sample std of a column with fewer than two
observations and the sample skew of one with fewer than three (the
first `_to_native` pass turns the undefined `np.float64` NaN into a
plain float NaN, and the `json_ready` wrapper's second pass maps that
to `None`). -/
theorem profile_reports_undefined_stats_as_null (L : StatLib) (t : Table)
    (e : NumStats) (he : e ∈ (profileTable L t).numericSummary) :
    (e.mean ≠ JVal.nanFloat ∧ e.median ≠ JVal.nanFloat ∧
     e.std ≠ JVal.nanFloat ∧ e.minV ≠ JVal.nanFloat ∧
     e.maxV ≠ JVal.nanFloat ∧ e.skew ≠ JVal.nanFloat) ∧
    (e.count < 2 → e.std = JVal.null) ∧
    (e.count < 3 → e.skew = JVal.null) := by
  simp only [profileTable] at he
  rw [List.mem_map] at he
  obtain ⟨c, hc, hce⟩ := he
  subst hce
  refine ⟨⟨jsonReadyScalar_ne_nan _, jsonReadyScalar_ne_nan _,
    jsonReadyScalar_ne_nan _, jsonReadyScalar_ne_nan _,
    jsonReadyScalar_ne_nan _, jsonReadyScalar_ne_nan _⟩, ?_, ?_⟩
  · intro h
    have h2 : c.nums.length < 2 := h
    show jsonReadyScalar (statToNative L (pdStd L c.nums)) = JVal.null
    rw [pdStd, if_neg (by omega)]
    rfl
  · intro h
    have h3 : c.nums.length < 3 := h
    show jsonReadyScalar (statToNative L (pdSkew L c.nums)) = JVal.null
    rw [pdSkew, if_neg (by omega)]
    rfl

/-- C3 witness: the profile of the one-observation numeric column has a
single summary entry whose std and skew are the explicit null. -/
theorem profile_reports_undefined_stats_as_null_witness :
    (⟨"x", 1, JVal.float 5, JVal.float 5, JVal.null, JVal.float 5,
      JVal.float 5, JVal.null⟩ : NumStats) ∈
      (profileTable concreteLib tableSingleNum).numericSummary ∧
    ((⟨"x", 1, JVal.float 5, JVal.float 5, JVal.null, JVal.float 5,
      JVal.float 5, JVal.null⟩ : NumStats).std = JVal.null ∧
     (⟨"x", 1, JVal.float 5, JVal.float 5, JVal.null, JVal.float 5,
      JVal.float 5, JVal.null⟩ : NumStats).skew = JVal.null ∧
     (⟨"x", 1, JVal.float 5, JVal.float 5, JVal.null, JVal.float 5,
      JVal.float 5, JVal.null⟩ : NumStats).mean ≠ JVal.nanFloat) :=
  have hm : (⟨"x", 1, JVal.float 5, JVal.float 5, JVal.null, JVal.float 5,
      JVal.float 5, JVal.null⟩ : NumStats) ∈
      (profileTable concreteLib tableSingleNum).numericSummary := by decide
  have hr := profile_reports_undefined_stats_as_null concreteLib tableSingleNum _ hm
  ⟨hm, hr.2.1 (by decide), hr.2.2 (by decide), hr.1.1⟩

/-- Claim C7: triggering a run while the same job is mid-run fails with
the already-running error and leaves the registry exactly as it was (no
second run executed or queued); a run that does start has its slot
released by the `finally` block whatever the outcome. -/
theorem run_job_already_running_guard :
    (∀ (env : RunEnv) (s0 : BState) (jid rid tb : String) (now : Nat) (j : BJob),
      findJob s0 jid = some j → jid ∈ s0.runningJobs →
      runJob env s0 jid rid tb now = (s0, Except.error RunErr.alreadyRunning)) ∧
    (∀ (env : RunEnv) (s0 : BState) (jid rid tb : String) (now : Nat) (j : BJob),
      findJob s0 jid = some j → jid ∉ s0.runningJobs →
      jid ∉ (runJob env s0 jid rid tb now).1.runningJobs) := by
  constructor
  · intro env s0 jid rid tb now j hfind hmem
    rw [runJob]
    simp [hfind, hmem]
  · intro env s0 jid rid tb now j hfind hmem
    rw [runJob]
    simp only [hfind]
    rw [if_neg hmem]
    exact discard_not_mem _ _

/-- Witness for C7 at the concrete registry fixtures. -/
theorem run_job_already_running_guard_witness :
    runJob envTwoFiles stateRunning "j" "r1" "manual" 100 =
      (stateRunning, Except.error RunErr.alreadyRunning) ∧
    "j" ∉ (runJob envTwoFiles stateS0 "j" "r1" "manual" 100).1.runningJobs :=
  ⟨run_job_already_running_guard.1 envTwoFiles stateRunning "j" "r1" "manual" 100 jobJ
      rfl (by decide),
   run_job_already_running_guard.2 envTwoFiles stateS0 "j" "r1" "manual" 100 jobJ
      rfl (by decide)⟩

/-- Claim C9: zero-row and unparseable inputs are rejected with the
invalid-input error before any pipeline stage runs, so no (partial)
report is produced. -/
theorem ingest_rejects_empty_or_unparseable
    (L : StatLib) (parseCsv : List Nat → Option Table) (raw : List Nat)
    (sourceFile : String) (autoFix : Bool)
    (h : parseCsv raw = none ∨ ∃ df, parseCsv raw = some df ∧ df.nRows = 0) :
    ∃ msg, ingestCsvBytes L parseCsv raw sourceFile autoFix =
      Except.error (IngestError.invalidInput msg) := by
  rw [ingestCsvBytes]
  by_cases h1 : sourceFile = ""
  · exact ⟨"A file name is required.", by rw [if_pos h1]⟩
  · rw [if_neg h1]
    by_cases h2 : raw = []
    · exact ⟨"Uploaded CSV is empty.", by rw [if_pos h2]⟩
    · rw [if_neg h2]
      rcases h with hnone | ⟨df, hdf, hrows⟩
      · rw [hnone]
        exact ⟨"CSV parsing failed.", rfl⟩
      · simp only [hdf]
        exact ⟨"CSV has no rows.", by rw [if_pos (Or.inl hrows)]⟩

/-- Witness for C9: unparseable bytes (and, via the same theorem, a
zero-row frame). -/
theorem ingest_rejects_empty_or_unparseable_witness :
    (∃ msg, ingestCsvBytes concreteLib (fun _ => none) [65] "a.csv" true =
      Except.error (IngestError.invalidInput msg)) ∧
    (∃ msg, ingestCsvBytes concreteLib
      (fun _ => some ⟨0, [⟨"x", Dtype.numeric, []⟩]⟩) [65] "a.csv" true =
      Except.error (IngestError.invalidInput msg)) :=
  ⟨ingest_rejects_empty_or_unparseable concreteLib (fun _ => none) [65] "a.csv" true
      (Or.inl rfl),
   ingest_rejects_empty_or_unparseable concreteLib
      (fun _ => some ⟨0, [⟨"x", Dtype.numeric, []⟩]⟩) [65] "a.csv" true
      (Or.inr ⟨_, rfl, rfl⟩)⟩

/-- Claim C10: in the text-normalization stage an object column is
replaced exactly when at least one cell's normalized form differs from
its original string form, and then every non-missing cell — numbers
stored in the column included — becomes the trimmed, collapsed,
lowercased string of its Python str() form while missing cells stay
missing; a column with zero changes is returned untouched, as are all
non-object columns. -/
theorem normalize_categories_spec (L : StatLib) (t : Table) :
    (normalizeCategories L t).1.nRows = t.nRows ∧
    (normalizeCategories L t).1.cols = t.cols.map (fun c =>
      if c.dtype = Dtype.object ∧ normChangedCount L c ≠ 0 then
        { c with vals := c.vals.map (normCell L) }
      else c) ∧
    (∀ v : Val, v ≠ Val.na → normCell L v = Val.str (normalizeText (pyStr L v))) ∧
    normCell L Val.na = Val.na := by
  refine ⟨rfl, ?_, ?_, rfl⟩
  · show (t.cols.map _).map Prod.fst = _
    rw [List.map_map]
    apply List.map_congr_left
    intro c _
    by_cases hd : c.dtype = Dtype.object
    · by_cases hc : normChangedCount L c = 0
      · simp [Function.comp, hd, hc, normalizeCol]
      · simp [Function.comp, hd, hc, normalizeCol]
    · simp [Function.comp, hd]
  · intro v hv
    cases v with
    | na => exact absurd rfl hv
    | num q => rfl
    | str s => rfl
    | ts x => rfl
    | bool b => rfl

/-- Witness for C10 at a column mixing an unnormalized string, a number
stored as an object and a missing cell. -/
theorem normalize_categories_spec_witness :
    (normalizeCategories concreteLib tableNormMixed).1.cols =
      [⟨"c", Dtype.object, [Val.str "a", Val.str "5", Val.na]⟩] ∧
    normCell concreteLib (Val.num 5) = Val.str "5" := by
  have h := normalize_categories_spec concreteLib tableNormMixed
  refine ⟨?_, h.2.2.1 (Val.num 5) (by decide)⟩
  rw [h.2.1]
  decide

/-- Claim C4 counterexample: the job is registered with auto_fix = true
(so the run-slot snapshot records true), yet a concurrent update flipping
auto_fix to false between slot acquisition and the file's ingestion makes
the file ingest with false — the collaborator echoes the flag it received
("raw", not "fixed") into the dataset id. -/
theorem run_job_auto_fix_not_snapshotted :
    (findJob stateS0 "j").map BJob.autoFix = some true ∧
    (runJob envLiveFlip stateS0 "j" "r1" "manual" 100).2 =
      Except.ok ⟨"r1", "j", "Job", "manual", 100, 100, "success", 1, 1,
        [⟨"raw", "/w/a.csv"⟩], []⟩ ∧
    envLiveFlip.ingest fileA true = Except.ok "fixed" :=
  ⟨rfl, rfl, rfl⟩

/-- Claim C8 counterexample: a vanished watch directory makes `run_job`
raise a ValueError that propagates (the outer try has no handler): no run
record is appended, the job's last_status stays "idle" instead of
"failed", and the scheduler tick dies on the same exception. -/
theorem missing_watch_dir_propagates :
    (runJob envNoDir stateS0 "j" "r1" "manual" 100).2 =
        Except.error (RunErr.valueError "Watch directory is missing: /w") ∧
    (runJob envNoDir stateS0 "j" "r1" "manual" 100).1.runs = [] ∧
    ((findJob (runJob envNoDir stateS0 "j" "r1" "manual" 100).1 "j").map BJob.lastStatus)
        = some "idle" ∧
    (runLoopTick envNoDir (fun s => s ++ "-r") stateTick 50).2 =
        some (RunErr.valueError "Watch directory is missing: /w") :=
  ⟨rfl, rfl, rfl, rfl⟩

/-- Claim C4 amended: in a single-file run, the auto_fix flag handed to
the ingestion collaborator is the LIVE registry entry's flag as read
under the lock after any concurrent mutation `u`, not the snapshot taken
at slot acquisition. -/
theorem run_job_uses_live_auto_fix
    (s0 : BState) (jid rid tb : String) (now : Nat) (j j2 : BJob) (f : FileObs)
    (u : Nat → BState → BState) (ing : FileObs → Bool → Except String String)
    (dirs : String → Bool) (d : String)
    (hfind : findJob s0 jid = some j)
    (hnr : jid ∉ s0.runningJobs)
    (hdirT : dirs j.watchDir = true)
    (hlive : findJob (u 0 { s0 with runningJobs := s0.runningJobs ++ [jid] }) jid = some j2)
    (hstale : alistLookup j2.processedSignatures f.path ≠ some (fileSignature f))
    (hing : ing f j2.autoFix = Except.ok d) :
    ∃ r : RunRec,
      (runJob ⟨dirs, fun _ => [f], ing, u⟩ s0 jid rid tb now).2 = Except.ok r ∧
      r.datasetsCreated = [⟨d, f.path⟩] ∧ r.filesProcessed = 1 ∧ r.filesSeen = 1 ∧
      r.status = "success" := by
  have hbody : processFiles ⟨dirs, fun _ => [f], ing, u⟩ jid
      { s0 with runningJobs := s0.runningJobs ++ [jid] } [f] = Except.ok
      ⟨(match findJob (u 0 { s0 with runningJobs := s0.runningJobs ++ [jid] }) jid with
        | some _ => setJob (u 0 { s0 with runningJobs := s0.runningJobs ++ [jid] }) jid
            (sigUpdate f.path (fileSignature f))
        | none => u 0 { s0 with runningJobs := s0.runningJobs ++ [jid] }),
        [], [⟨d, f.path⟩], 1⟩ := by
    rw [processFiles]
    show processFile ⟨dirs, fun _ => [f], ing, u⟩ jid 0
        ⟨{ s0 with runningJobs := s0.runningJobs ++ [jid] }, [], [], 0⟩ f >>=
        (fun acc => List.foldlM _ acc []) = _
    rw [processFile]
    simp only [hlive, hstale, hing]
    rfl
  rw [runJob]
  simp only [hfind]
  rw [if_neg hnr]
  simp only [hdirT, Bool.not_true, Bool.false_eq_true, if_false, hbody]
  exact ⟨_, rfl, rfl, rfl, rfl, rfl⟩



/-- Witness for the amended C4 at `envLiveFlip`-shaped components. -/
theorem run_job_uses_live_auto_fix_witness :
    ∃ r : RunRec,
      (runJob ⟨fun _ => true, fun _ => [fileA],
        fun _ af => Except.ok (if af then "fixed" else "raw"),
        fun _ s => setJob s "j" (fun x => { x with autoFix := false })⟩
        stateS0 "j" "r1" "manual" 100).2 = Except.ok r ∧
      r.datasetsCreated = [⟨"raw", fileA.path⟩] ∧ r.filesProcessed = 1 ∧ r.filesSeen = 1 ∧
      r.status = "success" :=
  run_job_uses_live_auto_fix stateS0 "j" "r1" "manual" 100 jobJ
    { jobJ with autoFix := false } fileA
    (fun _ s => setJob s "j" (fun x => { x with autoFix := false }))
    (fun _ af => Except.ok (if af then "fixed" else "raw"))
    (fun _ => true) "raw" rfl (by decide) rfl (by decide) (by decide) rfl

/-- Claim C8 amended: a missing watch directory makes `run_job` return
the propagated ValueError — no run record is appended, the job's fields
stay untouched, only the slot is released — while per-file ingestion
failures are recovered locally: the run completes with status "failed"
(when nothing was processed), the error strings are recorded, the job's
last_status becomes "failed", and the run record is appended to the
bounded history. -/
theorem run_errors_recorded_or_propagated :
    (∀ (env : RunEnv) (s0 : BState) (jid rid tb : String) (now : Nat) (j : BJob),
      findJob s0 jid = some j → jid ∉ s0.runningJobs →
      env.dirExists j.watchDir = false →
      runJob env s0 jid rid tb now =
        (discardRunning { s0 with runningJobs := s0.runningJobs ++ [jid] } jid,
         Except.error (RunErr.valueError ("Watch directory is missing: " ++ j.watchDir))) ∧
      (runJob env s0 jid rid tb now).1.runs = s0.runs ∧
      jid ∉ (runJob env s0 jid rid tb now).1.runningJobs) ∧
    (∀ (env : RunEnv) (s0 : BState) (jid rid tb : String) (now : Nat) (j : BJob),
      env.interleave = (fun _ s => s) →
      findJob s0 jid = some j →
      (∀ x ∈ s0.jobs, x.jobId = jid → x = j) →
      jid ∉ s0.runningJobs →
      env.dirExists j.watchDir = true →
      (∀ f ∈ env.filesUnder j.watchDir, ∃ m, env.ingest f j.autoFix = Except.error m) →
      (∃ f ∈ env.filesUnder j.watchDir,
        alistLookup j.processedSignatures f.path ≠ some (fileSignature f)) →
      ∃ r : RunRec,
        (runJob env s0 jid rid tb now).2 = Except.ok r ∧
        r.status = "failed" ∧ r.filesProcessed = 0 ∧ r.errors ≠ [] ∧
        (findJob (runJob env s0 jid rid tb now).1 jid).map BJob.lastStatus =
          some "failed" ∧
        r ∈ (runJob env s0 jid rid tb now).1.runs) := by
  constructor
  · intro env s0 jid rid tb now j hfind hnr hdir
    have hmain : runJob env s0 jid rid tb now =
        (discardRunning { s0 with runningJobs := s0.runningJobs ++ [jid] } jid,
         Except.error (RunErr.valueError ("Watch directory is missing: " ++ j.watchDir))) := by
      rw [runJob]
      simp only [hfind]
      rw [if_neg hnr]
      simp only [hdir, Bool.not_false, if_true]
    refine ⟨hmain, ?_, ?_⟩
    · rw [hmain]
      rfl
    · rw [hmain]
      exact discard_not_mem _ _
  · intro env s0 jid rid tb now j henv hfind hone hnr hdir hfail hstalef
    obtain ⟨hr, hf, ho, hn, hrn⟩ :=
      runJob_noconc_facts env s0 jid rid tb now j henv hfind hone hnr hdir
    obtain ⟨hs, hp, he⟩ :=
      loopSim_all_fail env.ingest j.autoFix (env.filesUnder j.watchDir)
        j.processedSignatures hfail
    have herrne : (loopSim env.ingest j.autoFix j.processedSignatures
        (env.filesUnder j.watchDir)).errors ≠ [] := by
      intro hnil
      rcases hstalef with ⟨f, hfmem, hfstale⟩
      have hfmemf : f ∈ (env.filesUnder j.watchDir).filter
          (fun g => decide (alistLookup j.processedSignatures g.path ≠
            some (fileSignature g))) :=
        List.mem_filter.mpr ⟨hfmem, by simpa using hfstale⟩
      have : 0 < ((env.filesUnder j.watchDir).filter
          (fun g => decide (alistLookup j.processedSignatures g.path ≠
            some (fileSignature g)))).length :=
        List.length_pos.mpr (List.ne_nil_of_mem hfmemf)
      rw [← he, hnil] at this
      simp at this
    have hstat : deriveStatus
        (loopSim env.ingest j.autoFix j.processedSignatures (env.filesUnder j.watchDir)).errors
        (loopSim env.ingest j.autoFix j.processedSignatures
          (env.filesUnder j.watchDir)).processed = "failed" := by
      rw [hp, deriveStatus, if_pos ⟨herrne, rfl⟩]
    refine ⟨_, hr, hstat, hp, herrne, ?_, ?_⟩
    · rw [hf]
      show some (deriveStatus
        (loopSim env.ingest j.autoFix j.processedSignatures (env.filesUnder j.watchDir)).errors
        (loopSim env.ingest j.autoFix j.processedSignatures
          (env.filesUnder j.watchDir)).processed) = some "failed"
      rw [hstat]
    · rw [hrn]
      exact mem_takeLast_append _ _ _ (by rw [MAX_RUN_HISTORY]; omega)



/-- Witness for the amended C8 at the no-directory and all-failing
environments. -/
theorem run_errors_recorded_or_propagated_witness :
    (runJob envNoDir stateS0 "j" "r1" "manual" 100 =
      (discardRunning { stateS0 with runningJobs := stateS0.runningJobs ++ ["j"] } "j",
       Except.error (RunErr.valueError ("Watch directory is missing: " ++ jobJ.watchDir)))) ∧
    (∃ r : RunRec,
      (runJob envAllFail stateS0 "j" "r1" "manual" 100).2 = Except.ok r ∧
      r.status = "failed" ∧ r.filesProcessed = 0 ∧ r.errors ≠ [] ∧
      (findJob (runJob envAllFail stateS0 "j" "r1" "manual" 100).1 "j").map
        BJob.lastStatus = some "failed" ∧
      r ∈ (runJob envAllFail stateS0 "j" "r1" "manual" 100).1.runs) :=
  ⟨(run_errors_recorded_or_propagated.1 envNoDir stateS0 "j" "r1" "manual" 100 jobJ
      rfl (by decide) rfl).1,
   run_errors_recorded_or_propagated.2 envAllFail stateS0 "j" "r1" "manual" 100 jobJ
      rfl rfl (by decide) (by decide) rfl (fun f _ => ⟨"parse error", rfl⟩)
      ⟨fileA, by decide, by decide⟩⟩

/-! ### Dedup exactness (claim C1) -/

theorem keepIdx_length (t : Table) : t.keepIdx.length = t.nRows - t.dupCount := by
  rw [Table.keepIdx, Table.dupCount]
  have hsplit := List.length_eq_countP_add_countP (fun i => t.isDupRow i) (List.range t.nRows)
  rw [List.countP_eq_length_filter, List.countP_eq_length_filter, List.length_range] at hsplit
  have hcongr : (List.range t.nRows).filter (fun a => decide ¬(fun i => t.isDupRow i) a = true) =
      (List.range t.nRows).filter (fun i => ! t.isDupRow i) := by
    apply List.filter_congr
    intro a _
    cases h : t.isDupRow a <;> simp [h]
  rw [hcongr] at hsplit
  omega

theorem getD_map_getD {α β : Type} (l : List α) (g : α → β) (k : Nat) (d : β) (d0 : α)
    (hk : k < l.length) : (l.map g).getD k d = g (l.getD k d0) := by
  rw [List.getD_eq_getElem _ _ (by simpa using hk), List.getD_eq_getElem _ _ hk,
    List.getElem_map]

theorem dropDuplicates_row (t : Table) (k : Nat) (hk : k < t.keepIdx.length) :
    (dropDuplicates t).1.row k = t.row (t.keepIdx.getD k 0) := by
  show (t.cols.map _).map _ = _
  rw [List.map_map, Table.row]
  apply List.map_congr_left
  intro c _
  exact getD_map_getD t.keepIdx (fun i => c.vals.getD i Val.na) k Val.na 0 hk

theorem keepIdx_not_dup (t : Table) (i : Nat) (hi : i ∈ t.keepIdx) :
    t.isDupRow i = false := by
  have h := List.of_mem_filter hi
  simpa using h

theorem mem_keepIdx_getD (t : Table) (k : Nat) (hk : k < t.keepIdx.length) :
    t.keepIdx.getD k 0 ∈ t.keepIdx := by
  rw [List.getD_eq_getElem _ _ hk]
  exact List.getElem_mem _

theorem isDupRow_false_row_ne (t : Table) (i : Nat) (hi : t.isDupRow i = false)
    (jj : Nat) (hjj : jj < i) : t.row jj ≠ t.row i := by
  rw [Table.isDupRow, List.any_eq_false] at hi
  have := hi jj (List.mem_range.mpr hjj)
  simpa using this

theorem dropDuplicates_dupCount (t : Table) : (dropDuplicates t).1.dupCount = 0 := by
  rw [Table.dupCount, List.length_eq_zero, List.filter_eq_nil_iff]
  intro i hi
  have hik : i < t.keepIdx.length := by
    simpa using List.mem_range.mp hi
  show ¬ (dropDuplicates t).1.isDupRow i = true
  rw [Bool.not_eq_true, Table.isDupRow, List.any_eq_false]
  intro jj hjjmem
  rw [List.mem_range] at hjjmem
  simp only [decide_eq_true_eq]
  have hjjk : jj < t.keepIdx.length := lt_trans hjjmem hik
  rw [dropDuplicates_row t jj hjjk, dropDuplicates_row t i hik]
  have hlt : t.keepIdx.getD jj 0 < t.keepIdx.getD i 0 := by
    have hsorted : t.keepIdx.Pairwise (fun a b => a < b) :=
      (List.pairwise_lt_range t.nRows).filter _
    have hp := List.pairwise_iff_get.mp hsorted
    have h2 := hp ⟨jj, hjjk⟩ ⟨i, hik⟩ (by simpa using hjjmem)
    rw [List.getD_eq_getElem _ _ hjjk, List.getD_eq_getElem _ _ hik]
    simpa using h2
  have hnd := keepIdx_not_dup t _ (mem_keepIdx_getD t i hik)
  exact isDupRow_false_row_ne t _ hnd _ hlt



/-- Claim C1 counterexample: on the column ["A", "a"] the dedup stage
removes nothing (the rows differ), but the later text-normalization stage
maps both to "a", so the final profile reports one duplicate row —
`after.duplicate_rows` is not 0 for every table. -/
theorem pipeline_can_leave_duplicates_after :
    (runPipeline concreteLib tableCityCase).2.before.duplicateRows = 0 ∧
    (runPipeline concreteLib tableCityCase).2.dedupeFix.duplicatesRemoved = 0 ∧
    (runPipeline concreteLib tableCityCase).2.after.rows = 2 ∧
    (runPipeline concreteLib tableCityCase).2.after.duplicateRows = 1 := by decide

/-- Claim C1 amended: the row-count arithmetic is exact for every table
(`after.rows = before.rows - duplicates_removed`), and the table produced
by the dedup stage itself has no duplicate rows; the final profile's
duplicate count can still be positive because the capping and
normalization stages run after dedup and can merge distinct rows. -/
theorem pipeline_rows_arithmetic_and_dedup_exact :
    (∀ (L : StatLib) (t : Table),
      (runPipeline L t).2.after.rows =
        (runPipeline L t).2.before.rows -
          (runPipeline L t).2.dedupeFix.duplicatesRemoved) ∧
    (∀ t : Table, (dropDuplicates t).1.dupCount = 0) := by
  constructor
  · intro L t
    have h1 : (runPipeline L t).2.after.rows =
        ((fillMissingValues (inferTable L t).1).1).keepIdx.length := rfl
    have h2 : (runPipeline L t).2.before.rows = t.nRows := rfl
    have h3 : (runPipeline L t).2.dedupeFix.duplicatesRemoved =
        ((fillMissingValues (inferTable L t).1).1).dupCount := rfl
    have h4 : ((fillMissingValues (inferTable L t).1).1).nRows = t.nRows := rfl
    rw [h1, h2, h3, keepIdx_length, h4]
  · exact dropDuplicates_dupCount

/-! ### Imputation completeness (claim C2) -/

theorem foldl_mode_mem (l : List Val) : ∀ (ws : List Val) (acc : Option Val),
    (∀ x ∈ ws, x ∈ l) → (∀ b, acc = some b → b ∈ l) →
    ∀ v, (ws.foldl (fun a w =>
      match a with
      | none => some w
      | some b => if l.count b < l.count w then some w else some b) acc) = some v →
      v ∈ l := by
  intro ws
  induction ws with
  | nil => intro acc _ hacc v hv; exact hacc v hv
  | cons w ws ih =>
    intro acc hsub hacc v hv
    rw [List.foldl_cons] at hv
    refine ih _ (fun x hx => hsub x (by simp [hx])) ?_ v hv
    intro b hb
    cases acc with
    | none =>
      simp only at hb
      injection hb with hb
      exact hb ▸ hsub w (by simp)
    | some c =>
      simp only at hb
      by_cases hlt : l.count c < l.count w
      · rw [if_pos hlt] at hb
        injection hb with hb
        exact hb ▸ hsub w (by simp)
      · rw [if_neg hlt] at hb
        injection hb with hb
        exact hb ▸ hacc c rfl

theorem pdMode_mem (l : List Val) (v : Val) (h : pdMode l = some v) : v ∈ l :=
  foldl_mode_mem l l none (fun _ hx => hx) (by simp) v h

theorem fillCol_missingCount (c : Col) : ((fillCol c).1).missingCount = 0 := by
  rw [fillCol]
  by_cases h : c.missingCount = 0
  · rw [if_pos h]
    exact h
  · rw [if_neg h]
    show List.countP _ (c.vals.map _) = 0
    rw [List.countP_eq_zero]
    intro v hv
    rw [List.mem_map] at hv
    obtain ⟨w, hw, rfl⟩ := hv
    by_cases hna : w = Val.na
    · rw [if_pos hna]
      simp only [decide_eq_true_eq]
      by_cases hd : isNumericDtype c.dtype = true
      · rw [if_pos hd]
        cases pdMedian c.nums <;> simp
      · rw [if_neg hd]
        cases hm : pdMode c.nonNull with
        | none => simp
        | some m =>
          have hmem := pdMode_mem _ _ hm
          have h2 := List.of_mem_filter hmem
          simpa using h2
    · rw [if_neg hna]
      simpa using hna



theorem missingCells_fill (t : Table) : ((fillMissingValues t).1).missingCells = 0 := by
  rw [Table.missingCells, List.sum_eq_zero_iff]
  intro x hx
  rw [List.mem_map] at hx
  obtain ⟨c2, hc2, rfl⟩ := hx
  show c2.missingCount = 0
  have : c2 ∈ (t.cols.map fillCol).map Prod.fst := hc2
  rw [List.map_map, List.mem_map] at this
  obtain ⟨c, _, rfl⟩ := this
  exact fillCol_missingCount c

theorem missingCount_map_of (c : Col) (g : Val → Val)
    (hg : ∀ v, v ≠ Val.na → g v ≠ Val.na) (h : c.missingCount = 0) :
    Col.missingCount { c with vals := c.vals.map g } = 0 := by
  rw [Col.missingCount, List.countP_eq_zero] at h ⊢
  intro v hv
  rw [List.mem_map] at hv
  obtain ⟨w, hw, rfl⟩ := hv
  have := h w hw
  simp only [decide_eq_true_eq] at this ⊢
  exact hg w this

theorem clipCol_missingCount (c : Col) (h : c.missingCount = 0) :
    ((clipCol c).1).missingCount = 0 := by
  rw [clipCol]
  cases pdQuantile c.nums (qMk 1 4) with
  | none => exact h
  | some q1 =>
    cases pdQuantile c.nums (qMk 3 4) with
    | none => exact h
    | some q3 =>
      dsimp only
      by_cases hiqr : qSub q3 q1 = 0
      · rw [if_pos hiqr]; exact h
      · rw [if_neg hiqr]
        by_cases hout : (c.nums.countP (fun x =>
            decide (x < qSub q1 (qMul (qMk 3 2) (qSub q3 q1))) ||
            decide (qAdd q3 (qMul (qMk 3 2) (qSub q3 q1)) < x))) = 0
        · rw [if_pos hout]; exact h
        · rw [if_neg hout]
          exact missingCount_map_of c _ (fun v hv => by cases v <;> simp_all) h

theorem normalizeCol_missingCount (L : StatLib) (c : Col) (h : c.missingCount = 0) :
    ((normalizeCol L c).1).missingCount = 0 := by
  rw [normalizeCol]
  by_cases hc : normChangedCount L c = 0
  · rw [if_pos hc]; exact h
  · rw [if_neg hc]
    refine missingCount_map_of c _ (fun v hv => ?_) h
    cases v with
    | na => exact absurd rfl hv
    | num q => simp [normCell]
    | str s => simp [normCell]
    | ts x => simp [normCell]
    | bool b => simp [normCell]

theorem skewCol_missingCount (L : StatLib) (c : Col) (h : c.missingCount = 0) :
    ((skewCol L c).1).missingCount = 0 := by
  rw [skewCol]
  by_cases hg : (skewGate L c && skewMinNonNeg c) = true
  · rw [if_pos hg]
    exact missingCount_map_of c _ (fun v hv => by cases v <;> simp_all) h
  · rw [if_neg hg]; exact h

theorem missingCells_zero_iff (t : Table) :
    t.missingCells = 0 ↔ ∀ c ∈ t.cols, c.missingCount = 0 := by
  rw [Table.missingCells, List.sum_eq_zero_iff]
  constructor
  · intro h c hc
    exact h c.missingCount (List.mem_map_of_mem Col.missingCount hc)
  · intro h x hx
    rw [List.mem_map] at hx
    obtain ⟨c, hc, rfl⟩ := hx
    exact h c hc

theorem missingCells_dedup (t : Table) (hwf : t.WF) (h : t.missingCells = 0) :
    ((dropDuplicates t).1).missingCells = 0 := by
  rw [missingCells_zero_iff] at h ⊢
  intro c2 hc2
  have : c2 ∈ t.cols.map (fun c =>
      { c with vals := t.keepIdx.map (fun i => c.vals.getD i Val.na) }) := hc2
  rw [List.mem_map] at this
  obtain ⟨c, hc, rfl⟩ := this
  show List.countP _ (t.keepIdx.map _) = 0
  rw [List.countP_eq_zero]
  intro v hv
  rw [List.mem_map] at hv
  obtain ⟨i, hi, rfl⟩ := hv
  have hilt : i < c.vals.length := by
    rw [hwf c hc]
    have := List.of_mem_filter hi
    exact List.mem_range.mp (List.mem_of_mem_filter hi)
  have hmem : c.vals.getD i Val.na ∈ c.vals := by
    rw [List.getD_eq_getElem _ _ hilt]
    exact List.getElem_mem _
  have hzero := h c hc
  rw [Col.missingCount, List.countP_eq_zero] at hzero
  exact hzero _ hmem

theorem inferCol_length (L : StatLib) (c : Col) :
    ((inferCol L c).1).vals.length = c.vals.length := by
  rw [inferCol]
  by_cases h1 : c.dtype ≠ Dtype.object
  · rw [if_pos h1]
  · rw [if_neg h1]
    by_cases h2 : c.nonNull.length = 0
    · rw [if_pos h2]
    · rw [if_neg h2]
      by_cases h3 : qMk 85 100 ≤ qDiv (qNat ((c.vals.map (toNumericCell L)).countP
          (fun o => o.isSome))) (qNat c.nonNull.length)
      · rw [if_pos h3]
        simp
      · rw [if_neg h3]
        by_cases h4 : qMk 6 10 ≤ qDiv (qNat ((c.nonNull.map (pyStr L)).countP dateLike))
            (qNat c.nonNull.length)
        · rw [if_pos h4]
          by_cases h5 : qMk 85 100 ≤ qDiv (qNat ((c.vals.map (toDatetimeCell L)).countP
              (fun o => o.isSome))) (qNat c.nonNull.length)
          · rw [if_pos h5]
            simp
          · rw [if_neg h5]
        · rw [if_neg h4]

theorem fillCol_length (c : Col) : ((fillCol c).1).vals.length = c.vals.length := by
  rw [fillCol]
  by_cases h : c.missingCount = 0
  · rw [if_pos h]
  · rw [if_neg h]
    simp

theorem WF_infer (L : StatLib) (t : Table) (hwf : t.WF) : ((inferTable L t).1).WF := by
  intro c hc
  simp only [inferTable] at hc
  rw [List.mem_map] at hc
  obtain ⟨c0, hc0, rfl⟩ := hc
  show ((inferCol L c0).1).vals.length = t.nRows
  rw [inferCol_length]
  exact hwf c0 hc0

theorem WF_fill (t : Table) (hwf : t.WF) : ((fillMissingValues t).1).WF := by
  intro c hc
  have : c ∈ (t.cols.map fillCol).map Prod.fst := hc
  rw [List.map_map, List.mem_map] at this
  obtain ⟨c0, hc0, rfl⟩ := this
  show ((fillCol c0).1).vals.length = t.nRows
  rw [fillCol_length]
  exact hwf c0 hc0



theorem missingCells_clip (t : Table) (h : t.missingCells = 0) :
    ((clipOutliersIqr t).1).missingCells = 0 := by
  rw [missingCells_zero_iff] at h ⊢
  intro c2 hc2
  simp only [clipOutliersIqr] at hc2
  rw [List.map_map, List.mem_map] at hc2
  obtain ⟨c0, hc0, rfl⟩ := hc2
  by_cases hd : c0.dtype = Dtype.numeric
  · simp only [Function.comp, if_pos hd]
    exact clipCol_missingCount c0 (h c0 hc0)
  · simp only [Function.comp, if_neg hd]
    exact h c0 hc0

theorem missingCells_norm (L : StatLib) (t : Table) (h : t.missingCells = 0) :
    ((normalizeCategories L t).1).missingCells = 0 := by
  rw [missingCells_zero_iff] at h ⊢
  intro c2 hc2
  simp only [normalizeCategories] at hc2
  rw [List.map_map, List.mem_map] at hc2
  obtain ⟨c0, hc0, rfl⟩ := hc2
  by_cases hd : c0.dtype = Dtype.object
  · simp only [Function.comp, if_pos hd]
    exact normalizeCol_missingCount L c0 (h c0 hc0)
  · simp only [Function.comp, if_neg hd]
    exact h c0 hc0

theorem missingCells_skew (L : StatLib) (t : Table) (h : t.missingCells = 0) :
    ((transformSkewed L t).1).missingCells = 0 := by
  rw [missingCells_zero_iff] at h ⊢
  intro c2 hc2
  simp only [transformSkewed] at hc2
  rw [List.map_map, List.mem_map] at hc2
  obtain ⟨c0, hc0, rfl⟩ := hc2
  by_cases hd : c0.dtype = Dtype.numeric
  · simp only [Function.comp, if_pos hd]
    exact skewCol_missingCount L c0 (h c0 hc0)
  · simp only [Function.comp, if_neg hd]
    exact h c0 hc0

/-- Claim C2: with auto-fix enabled, the pipeline's after-profile reports
zero missing cells on every (well-formed) table — the imputation stage
fills every missing cell (median or 0 for numeric columns, mode or
"unknown" otherwise) and no later stage reintroduces missing values. -/
theorem pipeline_missing_cells_after_zero (L : StatLib) (t : Table) (hwf : t.WF) :
    (runPipeline L t).2.after.missingCells = 0 := by
  show (transformSkewed L (normalizeCategories L (clipOutliersIqr
    (dropDuplicates (fillMissingValues (inferTable L t).1).1).1).1).1).1.missingCells = 0
  exact missingCells_skew L _ (missingCells_norm L _ (missingCells_clip _
    (missingCells_dedup _ (WF_fill _ (WF_infer L t hwf)) (missingCells_fill _))))

/-- Witness for C2 at a numeric column with one missing cell. -/
theorem pipeline_missing_cells_after_zero_witness :
    tableOneMissing.WF ∧
    (runPipeline concreteLib tableOneMissing).2.after.missingCells = 0 :=
  have hwf : tableOneMissing.WF :=
    (by decide : ∀ c ∈ tableOneMissing.cols, c.vals.length = tableOneMissing.nRows)
  ⟨hwf, pipeline_missing_cells_after_zero concreteLib tableOneMissing hwf⟩

/-! Stage identity lemmas for the idempotence claim: each fix stage,
when its own gate reports nothing to do, returns its input table
unchanged together with an all-zero record. -/

/-- A column the type-inference pass does not coerce is returned as is. -/
theorem inferCol_none_fst (L : StatLib) (c : Col) (h : (inferCol L c).2 = none) :
    (inferCol L c).1 = c := by
  rw [inferCol] at h ⊢
  by_cases h1 : c.dtype ≠ Dtype.object
  · rw [if_pos h1]
  · rw [if_neg h1] at h ⊢
    by_cases h2 : c.nonNull.length = 0
    · rw [if_pos h2]
    · rw [if_neg h2] at h ⊢
      by_cases h3 : qMk 85 100 ≤ qDiv (qNat ((c.vals.map (toNumericCell L)).countP
          (fun o => o.isSome))) (qNat c.nonNull.length)
      · rw [if_pos h3] at h
        simp at h
      · rw [if_neg h3] at h ⊢
        by_cases h4 : qMk 6 10 ≤ qDiv (qNat ((c.nonNull.map (pyStr L)).countP dateLike))
            (qNat c.nonNull.length)
        · rw [if_pos h4] at h ⊢
          by_cases h5 : qMk 85 100 ≤ qDiv (qNat ((c.vals.map (toDatetimeCell L)).countP
              (fun o => o.isSome))) (qNat c.nonNull.length)
          · rw [if_pos h5] at h
            simp at h
          · rw [if_neg h5]
        · rw [if_neg h4]

/-- When no column is coerced, type inference is the identity. -/
theorem inferTable_id (L : StatLib) (t : Table) (h : NoTypeCoercion L t) :
    inferTable L t = (t, []) := by
  rw [inferTable]
  have h1 : t.cols.map (fun c => (inferCol L c).1) = t.cols := by
    have h2 : ∀ c ∈ t.cols, (fun c => (inferCol L c).1) c = id c :=
      fun c hc => inferCol_none_fst L c (h c hc)
    rw [List.map_congr_left h2, List.map_id]
  have h3 : t.cols.filterMap (fun c => (inferCol L c).2) = [] :=
    List.filterMap_eq_nil_iff.mpr h
  rw [h1, h3]

/-- With no missing cells, imputation is the identity with a zero record. -/
theorem fill_id (t : Table) (h : t.missingCells = 0) :
    fillMissingValues t = (t, ⟨0, 0, []⟩) := by
  rw [missingCells_zero_iff] at h
  simp only [fillMissingValues]
  have h1 : t.cols.map fillCol = t.cols.map (fun c => (c, none)) :=
    List.map_congr_left (fun c hc => by rw [fillCol, if_pos (h c hc)])
  rw [h1, List.map_map, List.filterMap_map]
  have h2 : t.cols.filterMap ((fun p => Prod.snd p) ∘ fun c => ((c : Col),
      (none : Option (String × Nat)))) = [] :=
    List.filterMap_eq_nil_iff.mpr (fun a _ => rfl)
  rw [h2]
  have h3 : t.cols.map ((fun p => Prod.fst p) ∘ fun c => ((c : Col),
      (none : Option (String × Nat)))) = t.cols := by
    have h4 : ∀ c ∈ t.cols, ((fun p => Prod.fst p) ∘ fun c => ((c : Col),
        (none : Option (String × Nat)))) c = id c := fun c _ => rfl
    rw [List.map_congr_left h4, List.map_id]
  rw [h3]
  rfl

/-- Reading a list back by positional getD over its index range is the
identity. -/
theorem getD_range_map {α : Type} (l : List α) (d : α) :
    (List.range l.length).map (fun i => l.getD i d) = l := by
  induction l with
  | nil => rfl
  | cons a l ih =>
    rw [List.length_cons, List.range_succ_eq_map, List.map_cons, List.map_map]
    have h1 : (List.range l.length).map ((fun i => (a :: l).getD i d) ∘ Nat.succ) =
        (List.range l.length).map (fun i => l.getD i d) :=
      List.map_congr_left (fun i _ => rfl)
    rw [h1, ih]
    rfl

/-- With no duplicate rows, dedup keeps every row and is the identity. -/
theorem dedup_id (t : Table) (hwf : t.WF) (h : t.dupCount = 0) :
    dropDuplicates t = (t, ⟨0⟩) := by
  have hkeep : t.keepIdx = List.range t.nRows := by
    rw [Table.keepIdx, List.filter_eq_self]
    intro i _
    rw [Table.dupCount, List.length_eq_zero, List.filter_eq_nil_iff] at h
    by_cases hd : t.isDupRow i = true
    · by_cases hmem : i ∈ List.range t.nRows
      · exact absurd hd (h i hmem)
      · simp_all
    · simp_all
  rw [dropDuplicates, hkeep]
  have hcols : t.cols.map (fun c =>
      { c with vals := (List.range t.nRows).map (fun i => c.vals.getD i Val.na) }) =
      t.cols := by
    have h2 : ∀ c ∈ t.cols, ({ c with
        vals := (List.range t.nRows).map (fun i => c.vals.getD i Val.na) } : Col) = id c := by
      intro c hc
      show ({ c with vals := _ } : Col) = c
      rw [← hwf c hc, getD_range_map]
    rw [List.map_congr_left h2, List.map_id]
  rw [hcols, List.length_range]
  rw [← h]



/-- Each branch of the per-column IQR capper either leaves the column
untouched or records it. -/
theorem clipCol_cases (c : Col) :
    (clipCol c).1 = c ∨ ∃ p, (clipCol c).2 = some p := by
  simp only [clipCol]
  cases pdQuantile c.nums (qMk 1 4) with
  | none => exact Or.inl rfl
  | some q1 =>
    cases pdQuantile c.nums (qMk 3 4) with
    | none => exact Or.inl rfl
    | some q3 =>
      dsimp only
      split
      · exact Or.inl rfl
      · split
        · exact Or.inl rfl
        · exact Or.inr ⟨_, rfl⟩

/-- A column the IQR capper does not record is returned unchanged. -/
theorem clipCol_none_fst (c : Col) (h : (clipCol c).2 = none) :
    (clipCol c).1 = c := by
  rcases clipCol_cases c with h1 | ⟨p, h2⟩
  · exact h1
  · rw [h2] at h
    exact absurd h (by simp)

/-- Common shape of the per-column stages: if every column maps to
itself with no record, the column list is unchanged and the detail list
is empty. -/
theorem stage_pairs_id {β : Type} (cols : List Col) (f : Col → Col × Option β)
    (h : ∀ c ∈ cols, f c = (c, none)) :
    (cols.map f).map Prod.fst = cols ∧ (cols.map f).filterMap Prod.snd = [] := by
  constructor
  · rw [List.map_map]
    have h2 : ∀ c ∈ cols, (Prod.fst ∘ f) c = id c := by
      intro c hc
      show (f c).1 = c
      rw [h c hc]
    rw [List.map_congr_left h2, List.map_id]
  · rw [List.filterMap_map]
    refine List.filterMap_eq_nil_iff.mpr (fun c hc => ?_)
    show (f c).2 = none
    rw [h c hc]

/-- With no column the capper would touch, outlier capping is the
identity with a zero record. -/
theorem clip_id (t : Table)
    (h : ∀ c ∈ t.cols, c.dtype = Dtype.numeric → (clipCol c).2 = none) :
    clipOutliersIqr t = (t, ⟨0, 0, []⟩) := by
  simp only [clipOutliersIqr]
  have hf : ∀ c ∈ t.cols,
      (fun c => if c.dtype = Dtype.numeric then clipCol c else (c, none)) c = (c, none) := by
    intro c hc
    by_cases hd : c.dtype = Dtype.numeric
    · show (if c.dtype = Dtype.numeric then clipCol c else (c, none)) = (c, none)
      rw [if_pos hd]
      have h2 := h c hc hd
      have h1 := clipCol_none_fst c h2
      calc clipCol c = ((clipCol c).1, (clipCol c).2) := rfl
        _ = (c, none) := by rw [h1, h2]
    · show (if c.dtype = Dtype.numeric then clipCol c else (c, none)) = (c, none)
      rw [if_neg hd]
  have hmain := stage_pairs_id t.cols _ hf
  rw [hmain.1, hmain.2]
  rfl

/-- With every object column already in normalized form, text
normalization is the identity with a zero record. -/
theorem norm_id (L : StatLib) (t : Table)
    (h : ∀ c ∈ t.cols, c.dtype = Dtype.object → normChangedCount L c = 0) :
    normalizeCategories L t = (t, ⟨0, 0, []⟩) := by
  simp only [normalizeCategories]
  have hf : ∀ c ∈ t.cols,
      (fun c => if c.dtype = Dtype.object then normalizeCol L c else (c, none)) c = (c, none) := by
    intro c hc
    by_cases hd : c.dtype = Dtype.object
    · show (if c.dtype = Dtype.object then normalizeCol L c else (c, none)) = (c, none)
      rw [if_pos hd]
      simp only [normalizeCol]
      rw [if_pos (h c hc hd)]
    · show (if c.dtype = Dtype.object then normalizeCol L c else (c, none)) = (c, none)
      rw [if_neg hd]
  have hmain := stage_pairs_id t.cols _ hf
  rw [hmain.1, hmain.2]
  rfl

/-- With no numeric column passing the skew gate, the skew transform is
the identity with a zero record. -/
theorem skew_id (L : StatLib) (t : Table)
    (h : ∀ c ∈ t.cols, c.dtype = Dtype.numeric → skewGate L c = false) :
    transformSkewed L t = (t, ⟨0, []⟩) := by
  simp only [transformSkewed]
  have hf : ∀ c ∈ t.cols,
      (fun c => if c.dtype = Dtype.numeric then skewCol L c else (c, none)) c = (c, none) := by
    intro c hc
    by_cases hd : c.dtype = Dtype.numeric
    · show (if c.dtype = Dtype.numeric then skewCol L c else (c, none)) = (c, none)
      rw [if_pos hd]
      simp [skewCol, h c hc hd]
    · show (if c.dtype = Dtype.numeric then skewCol L c else (c, none)) = (c, none)
      rw [if_neg hd]
  have hmain := stage_pairs_id t.cols _ hf
  rw [hmain.1, hmain.2]
  rfl

/-- C5 (amended): on a well-formed table that is already clean (no
missing cells, no duplicate rows, nothing the IQR capper would clip, no
numeric column passing the skew gate, all object text already
normalized) AND on which type inference coerces no column, the pipeline
returns the table unchanged and every fix stage reports zero
columns/rows touched.  The extra no-coercion premise is necessary: see
the counterexample. -/
theorem pipeline_identity_on_clean_unconverted (L : StatLib) (t : Table)
    (hwf : t.WF) (hclean : CleanTable L t) (hnoc : NoTypeCoercion L t) :
    (runPipeline L t).1 = t ∧
    (runPipeline L t).2.typeConversions = [] ∧
    (runPipeline L t).2.missingFix = ⟨0, 0, []⟩ ∧
    (runPipeline L t).2.dedupeFix = ⟨0⟩ ∧
    (runPipeline L t).2.outlierFix = ⟨0, 0, []⟩ ∧
    (runPipeline L t).2.categoryFix = ⟨0, 0, []⟩ ∧
    (runPipeline L t).2.skewFix = ⟨0, []⟩ := by
  obtain ⟨hmiss, hdup, hclip, hskew, hnorm⟩ := hclean
  have hti : inferTable L t = (t, []) := inferTable_id L t hnoc
  have hfm : fillMissingValues t = (t, ⟨0, 0, []⟩) := fill_id t hmiss
  have hdd : dropDuplicates t = (t, ⟨0⟩) := dedup_id t hwf hdup
  have hco : clipOutliersIqr t = (t, ⟨0, 0, []⟩) := clip_id t hclip
  have hnc : normalizeCategories L t = (t, ⟨0, 0, []⟩) := norm_id L t hnorm
  have hsk : transformSkewed L t = (t, ⟨0, []⟩) := skew_id L t hskew
  refine ⟨?_, ?_, ?_, ?_, ?_, ?_, ?_⟩ <;>
    simp only [runPipeline, hti, hfm, hdd, hco, hnc, hsk]

theorem pipeline_identity_on_clean_unconverted_witness :
    tableCleanText.WF ∧ CleanTable concreteLib tableCleanText ∧
    NoTypeCoercion concreteLib tableCleanText ∧
    (runPipeline concreteLib tableCleanText).1 = tableCleanText ∧
    (runPipeline concreteLib tableCleanText).2.typeConversions = [] ∧
    (runPipeline concreteLib tableCleanText).2.missingFix = ⟨0, 0, []⟩ ∧
    (runPipeline concreteLib tableCleanText).2.dedupeFix = ⟨0⟩ ∧
    (runPipeline concreteLib tableCleanText).2.outlierFix = ⟨0, 0, []⟩ ∧
    (runPipeline concreteLib tableCleanText).2.categoryFix = ⟨0, 0, []⟩ ∧
    (runPipeline concreteLib tableCleanText).2.skewFix = ⟨0, []⟩ :=
  have hwf : tableCleanText.WF :=
    (by decide : ∀ c ∈ tableCleanText.cols, c.vals.length = tableCleanText.nRows)
  have hclean : CleanTable concreteLib tableCleanText := by
    unfold CleanTable
    decide
  have hnoc : NoTypeCoercion concreteLib tableCleanText := by
    unfold NoTypeCoercion
    decide
  have hmain := pipeline_identity_on_clean_unconverted concreteLib tableCleanText hwf hclean hnoc
  ⟨hwf, hclean, hnoc, hmain.1, hmain.2.1, hmain.2.2.1, hmain.2.2.2.1,
   hmain.2.2.2.2.1, hmain.2.2.2.2.2.1, hmain.2.2.2.2.2.2⟩

/-- C5 counterexample: an object column of the numeric string literals
"0", "1", "2" satisfies every cleanliness condition the claim lists (no
missing cells, no duplicates, no outliers, no skew, text already
trimmed/collapsed/lowercased), yet the pipeline does not return it
unchanged: the type-inference stage converts the column to numeric, so
the claim as stated is false without excluding type coercion. -/
theorem clean_table_pipeline_not_identity :
    CleanTable concreteLib tableDigitText ∧ tableDigitText.WF ∧
    (runPipeline concreteLib tableDigitText).1 ≠ tableDigitText := by
  refine ⟨?_, ?_, ?_⟩
  · unfold CleanTable
    decide
  · show ∀ c ∈ tableDigitText.cols, c.vals.length = tableDigitText.nRows
    decide
  · decide


end Eda
